import Mathlib

/-!
Verification development for the pseudocode complexity-analysis system
(backend core: lexer, parser, structural complexity engine, recurrence
solver).  Each Python component of `src/backend/src` is shallowly embedded
as executable Lean definitions; theorems about the embedding follow after
all definitions.

Conventions of the embedding:
* Python `int` is modelled as `Int` (`Nat` where the value is an index or
  position that is never negative in the source).
* Python floats appearing in the recurrence solver are modelled as `Rat`;
  the solver's claims only exercise branches where the float arithmetic is
  exact (see the comments at `masterGenericCases`).
* Fallible code returns `Except`; the lexer main loop, whose Python
  original can fail to terminate (see `tokenizeFuel`), additionally
  carries a fuel counter, with `none` meaning non-termination of the
  Python loop.
-/

namespace Algoritmos

/-! ## Lexer (src/backend/src/parsing/lexer.py)

`TokenKind`, `Token`, `RESERVED_WORDS` and the streaming lexer
`Lexer.iter_tokens` with its helper consumers.  The token stream is
produced eagerly, as `Lexer.tokenize` does via `list(...)`. -/

inductive TokenKind where
  | identifier
  | number
  | keyword
  | symbol
  | string
  | comment
  | whitespace
  | eof
deriving DecidableEq, Repr

structure Token where
  kind : TokenKind
  lexeme : String
  line : Nat
  column : Nat
deriving DecidableEq, Repr

def reservedWords : List String :=
  ["algoritmo", "procedimiento", "begin", "end", "for", "to", "while",
   "repeat", "until", "if", "then", "else", "do", "and", "or", "not",
   "call", "length", "null", "class", "mod", "div", "return", "print",
   "t", "f", "new", "array"]

/-- Python `str.isalpha` restricted to the ASCII letters actually used by
the repository's sources; non-ASCII characters handled specially by the
lexer (`∞`, `►`, arrow symbols) are not alphabetic in Python either. -/
def pyIsAlpha (c : Char) : Bool := c.isAlpha

/-- Python `str.isdigit` restricted to ASCII digits. -/
def pyIsDigit (c : Char) : Bool := c.isDigit

/-- Continuation characters of an identifier: `isalnum() or == "_"`. -/
def isIdentChar (c : Char) : Bool := c.isAlphanum || c = '_'

/-- The characters `_consume_whitespace` actually consumes.  Note that the
main loop enters the whitespace branch for `' '`, `'\t'` and `'\r'`, but
`_consume_whitespace` only advances past `' '` and `'\t'`: a `'\r'` makes
no progress. -/
def isWsChar (c : Char) : Bool := c = ' ' || c = '\t'

/-- `Lexer._consume_multi_symbol`: returns the canonical lexeme and the
advance width.  The advance rule is the source's
`2 if len(lexeme) == 2 and current in {"<", ">", ":"} else 1`. -/
def consumeMultiSymbol (c : Char) (nxt : Option Char) : Option (String × Nat) :=
  let lex? : Option String :=
    if c = '<' ∧ nxt = some '=' then some "<="
    else if c = '>' ∧ nxt = some '=' then some ">="
    else if c = '<' ∧ nxt = some '>' then some "<>"
    else if c = ':' ∧ nxt = some '=' then some ":="
    else if c = '≤' then some "≤"
    else if c = '≥' then some "≥"
    else if c = '≠' then some "<>"
    else if c = '🡨' then some "🡨"
    else if c = '↨' then some "🡨"
    else if c = '(' then some "("
    else if c = ')' then some ")"
    else none
  lex?.map (fun lex => (lex, if lex.length = 2 ∧ (c = '<' ∨ c = '>' ∨ c = ':') then 2 else 1))

/-- The scanning loop of `Lexer._consume_string`, entered just after the
opening quote (whose column increment the caller has already applied).
Returns the string contents and the suffix after the closing quote, or
`none` when the input ends first (Python raises `LexerError` then), plus
the final line and column. -/
def scanString : List Char → Nat → Nat → Option (List Char × List Char) × Nat × Nat
  | [], line, col => (none, line, col)
  | c :: cs, line, col =>
    if c = '"' then (some ([], cs), line, col + 1)
    else
      let ln := if c = '\n' then line + 1 else line
      let co := if c = '\n' then 1 else col + 1
      match scanString cs ln co with
      | (none, l2, c2) => (none, l2, c2)
      | (some (content, after), l2, c2) => (some (c :: content, after), l2, c2)

/-- Prepend an already-yielded token to the rest of the token stream. -/
def pushTok (t : Token) (r : Option (Except String (List Token))) :
    Option (Except String (List Token)) :=
  r.map (fun e => e.map (fun ts => t :: ts))

/-- `Lexer.iter_tokens`, materialised eagerly as `Lexer.tokenize` does.
The Python `while idx < length` loop is driven here by a fuel counter
decremented once per loop iteration; `none` models non-termination of the
Python loop (every iteration except the `'\r'` whitespace case strictly
consumes input, so `length + 1` fuel suffices for `'\r'`-free sources). -/
def tokenizeFuel : Nat → List Char → Nat → Nat → Option (Except String (List Token))
  | 0, _, _, _ => none
  | _ + 1, [], line, col => some (Except.ok [⟨TokenKind.eof, "", line, col⟩])
  | fuel + 1, c :: cs, line, col =>
    if c = ' ' ∨ c = '\t' ∨ c = '\r' then
      let run := (c :: cs).takeWhile isWsChar
      tokenizeFuel fuel ((c :: cs).dropWhile isWsChar) line (col + run.length)
    else if c = '∞' then
      pushTok ⟨TokenKind.identifier, "infinito", line, col⟩
        (tokenizeFuel fuel cs line (col + 1))
    else if c = '\n' then
      tokenizeFuel fuel cs (line + 1) 1
    else if c = '►' then
      let run := (c :: cs).takeWhile (fun ch => ¬ (ch = '\n'))
      tokenizeFuel fuel ((c :: cs).dropWhile (fun ch => ¬ (ch = '\n'))) line (col + run.length)
    else if c = '.' ∧ cs.head? = some '.' then
      pushTok ⟨TokenKind.symbol, "..", line, col⟩
        (tokenizeFuel fuel (cs.drop 1) line (col + 2))
    else if pyIsAlpha c then
      let run := (c :: cs).takeWhile isIdentChar
      let lex : String := ⟨run.map Char.toLower⟩
      let kind := if reservedWords.contains lex then TokenKind.keyword else TokenKind.identifier
      pushTok ⟨kind, lex, line, col⟩
        (tokenizeFuel fuel ((c :: cs).dropWhile isIdentChar) line (col + run.length))
    else if pyIsDigit c then
      let run := (c :: cs).takeWhile pyIsDigit
      pushTok ⟨TokenKind.number, ⟨run⟩, line, col⟩
        (tokenizeFuel fuel ((c :: cs).dropWhile pyIsDigit) line (col + run.length))
    else if c = '"' then
      match scanString cs line (col + 1) with
      | (none, l2, _) =>
        some (Except.error ("Unterminated string literal at line " ++ toString l2))
      | (some (content, after), l2, c2) =>
        pushTok ⟨TokenKind.string, ⟨content⟩, l2, col⟩
          (tokenizeFuel fuel after l2 c2)
    else
      match consumeMultiSymbol c cs.head? with
      | some (lex, adv) =>
        pushTok ⟨TokenKind.symbol, lex, line, col⟩
          (tokenizeFuel fuel ((c :: cs).drop adv) line (col + adv))
      | none =>
        pushTok ⟨TokenKind.symbol, String.singleton c, line, col⟩
          (tokenizeFuel fuel cs line (col + 1))

/-- `Lexer(source).tokenize()`.  `none` = the Python loop does not
terminate (only possible through the `'\r'` stall, see
`tokenizeFuel`); `some (.error m)` = `LexerError(m)`;
`some (.ok ts)` = the returned token list. -/
def tokenize (s : String) : Option (Except String (List Token)) :=
  tokenizeFuel (s.length + 1) s.toList 1 1

/-! Reference predicate, written from the specification's words, for the
refinement statement about lexer failure: the source contains an
unterminated string literal, i.e. scanning left to right — skipping
comment suffixes of lines (`►` up to end of line) and complete string
literals — some `"` is never closed before end of input.  The scan is a
three-state machine: ordinary text, inside a comment, inside a string. -/

mutual

def specUnterminatedString : List Char → Bool
  | [] => false
  | c :: cs =>
    if c = '►' then specInComment cs
    else if c = '"' then specInString cs
    else specUnterminatedString cs

def specInComment : List Char → Bool
  | [] => false
  | c :: cs => if c = '\n' then specUnterminatedString cs else specInComment cs

def specInString : List Char → Bool
  | [] => true
  | c :: cs => if c = '"' then specUnterminatedString cs else specInString cs

end

/-- Last token of the stream is the `Eof` marker. -/
def endsWithEof (ts : List Token) : Bool :=
  match ts.getLast? with
  | some t => t.kind = TokenKind.eof
  | none => false

/-- Whether an outcome of `tokenize` is a `LexerError`. -/
def isLexError (r : Option (Except String (List Token))) : Bool :=
  match r with
  | some (Except.error _) => true
  | _ => false

/-! ## AST (src/backend/src/parsing/ast_nodes.py)

Every dataclass carries the base `Node` fields `line, column`.  Note two
quirks of the source kept faithfully: `CallExpression` has fields
`(callee, arguments)` — although the parser tries to build it with a
`name=` keyword — and there is no `ArrayCreation` and no `NoOp` class at
all, although the parser (resp. the repository's tests) reference them. -/

inductive Expr where
  | callExpr (line column : Nat) (callee : Expr) (arguments : List Expr)
  | ident (line column : Nat) (name : String)
  | num (line column : Nat) (value : Int)
  | boolLit (line column : Nat) (value : Bool)
  | nullLit (line column : Nat)
  | strLit (line column : Nat) (value : String)
  | binOp (line column : Nat) (op : String) (left right : Expr)
  | unOp (line column : Nat) (op : String) (operand : Expr)
  | arrayAccess (line column : Nat) (base index : Expr)
  | fieldAccess (line column : Nat) (base : Expr) (fieldName : String)
  | lengthCall (line column : Nat) (arrayName : String)
  | rangeExpr (line column : Nat) (start stop : Expr)

def Expr.line : Expr → Nat
  | .callExpr l _ _ _ => l
  | .ident l _ _ => l
  | .num l _ _ => l
  | .boolLit l _ _ => l
  | .nullLit l _ => l
  | .strLit l _ _ => l
  | .binOp l _ _ _ _ => l
  | .unOp l _ _ _ => l
  | .arrayAccess l _ _ _ => l
  | .fieldAccess l _ _ _ => l
  | .lengthCall l _ _ => l
  | .rangeExpr l _ _ _ => l

def Expr.column : Expr → Nat
  | .callExpr _ c _ _ => c
  | .ident _ c _ => c
  | .num _ c _ => c
  | .boolLit _ c _ => c
  | .nullLit _ c => c
  | .strLit _ c _ => c
  | .binOp _ c _ _ _ => c
  | .unOp _ c _ _ => c
  | .arrayAccess _ c _ _ => c
  | .fieldAccess _ c _ _ => c
  | .lengthCall _ c _ => c
  | .rangeExpr _ c _ _ => c

inductive Stmt where
  | assignment (line column : Nat) (target value : Expr)
  | printStmt (line column : Nat) (expression : Expr)
  | forLoop (line column : Nat) (iterator : String) (start stop : Expr) (body : List Stmt)
  | whileLoop (line column : Nat) (condition : Expr) (body : List Stmt)
  | repeatUntil (line column : Nat) (body : List Stmt) (condition : Option Expr)
  | ifStmt (line column : Nat) (condition : Expr) (thenBranch elseBranch : List Stmt)
  | callStmt (line column : Nat) (name : String) (arguments : List Expr)
  | returnStmt (line column : Nat) (value : Option Expr)

structure Parameter where
  line : Nat
  column : Nat
  name : String
  datatype : Option String
deriving DecidableEq, Repr

structure ClassDefinition where
  line : Nat
  column : Nat
  name : String
  attributes : List String
deriving DecidableEq, Repr

inductive Declaration where
  | variableDecl (line column : Nat) (name : String) (datatype : Option String)
  | arrayDecl (line column : Nat) (name : String) (size : Option Expr)
  | objectDecl (line column : Nat) (name : String) (className : String)

structure Procedure where
  line : Nat
  column : Nat
  name : String
  parameters : List Parameter
  body : List Stmt

structure Program where
  line : Nat
  column : Nat
  name : String
  classDefinitions : List ClassDefinition
  declarations : List Declaration
  procedures : List Procedure
  body : List Stmt

/-! ## Parser (src/backend/src/parsing/parser.py)

`Parser` holds the eagerly produced token list, a cursor `idx` and the
`_previous` token; parsing runs in a state monad over `Except`.  The
error type separates `LexerError` (raised while `__init__` tokenizes),
`ParserError`, and genuine Python runtime errors the source would raise
on code paths referencing missing methods/classes.  Unbounded `while`
loops and the mutual recursion of the recursive-descent routines are
driven by a fuel argument; `outOfFuel` plays the role of Python's
`RecursionError` and is unreachable at the generous fuel used by
`parseProgram` for the inputs analysed in this file. -/

inductive PErr where
  | lexError (msg : String)
  | parserError (msg : String)
  | pythonError (msg : String)
  | outOfFuel
deriving DecidableEq, Repr

structure PState where
  tokens : List Token
  idx : Nat
  prev : Option Token
deriving DecidableEq, Repr

abbrev PM (α : Type) := StateT PState (Except PErr) α

def defaultToken : Token := ⟨TokenKind.eof, "", 0, 0⟩

/-- `Parser._current`: clamps to the last token (always `Eof`). -/
def PState.current (st : PState) : Token :=
  if st.idx < st.tokens.length then st.tokens.getD st.idx defaultToken
  else st.tokens.getLastD defaultToken

def curTok : PM Token := do
  pure (← get).current

/-- `Parser._advance`: never moves past the last index. -/
def advanceTok : PM Token := do
  let st ← get
  let token := st.current
  let newIdx := if st.idx < st.tokens.length - 1 then st.idx + 1 else st.idx
  set { st with idx := newIdx, prev := some token }
  pure token

def perr {α : Type} (msg : String) : PM α := throw (PErr.parserError msg)

def posStr (t : Token) : String := toString t.line ++ ":" ++ toString t.column

/-- Python `repr` of the short ASCII/లexeme strings interpolated with
`!r` in parser messages. -/
def pyRepr (s : String) : String := "\x27" ++ s ++ "\x27"

def expectTok (kind : TokenKind) (msg : String) : PM Token := do
  let token ← curTok
  if token.kind = kind then do
    let _ ← advanceTok
    pure token
  else perr (msg ++ " at " ++ posStr token)

def previousToken : PM Token := do
  match (← get).prev with
  | none => perr "No hay token previo disponible."
  | some t => pure t

def matchKeyword (value : String) : PM Bool := do
  let token ← curTok
  if token.kind = TokenKind.keyword ∧ token.lexeme = value then do
    let _ ← advanceTok
    pure true
  else pure false

def matchSymbol (value : String) : PM Bool := do
  let token ← curTok
  if token.kind = TokenKind.symbol ∧ token.lexeme = value then do
    let _ ← advanceTok
    pure true
  else pure false

def checkKind (kind : TokenKind) : PM Bool := do
  pure ((← curTok).kind = kind)

def checkSymbol (value : String) : PM Bool := do
  let token ← curTok
  pure (token.kind = TokenKind.symbol ∧ token.lexeme = value)

def checkKeyword (values : List String) : PM Bool := do
  let token ← curTok
  pure (token.kind = TokenKind.keyword ∧ values.contains token.lexeme)

/-- `Parser._check_ahead_for_array_declaration`. -/
def checkAheadArrayDecl : PM Bool := do
  let st ← get
  if st.idx + 1 ≥ st.tokens.length then pure false
  else
    let nextToken := st.tokens.getD (st.idx + 1) defaultToken
    pure (nextToken.kind = TokenKind.symbol ∧ nextToken.lexeme = "[")

def expectKeyword (value : String) (msg : String) : PM Token := do
  let token ← curTok
  if token.kind = TokenKind.keyword ∧ token.lexeme = value then do
    let _ ← advanceTok
    pure token
  else perr (msg ++ " (token actual: " ++ pyRepr token.lexeme ++ ") en " ++ posStr token)

def consumeKeyword (value : String) : PM Token :=
  expectKeyword value ("Se esperaba la palabra reservada " ++ pyRepr value)

def expectSymbol (value : String) (msg : String) : PM Token := do
  let token ← curTok
  if token.kind = TokenKind.symbol ∧ token.lexeme = value then do
    let _ ← advanceTok
    pure token
  else perr (msg ++ " (token actual: " ++ pyRepr token.lexeme ++ ") en " ++ posStr token)

def expectSymbolAny (values : List String) (msg : String) : PM Token := do
  let token ← curTok
  if token.kind = TokenKind.symbol ∧ values.contains token.lexeme then do
    let _ ← advanceTok
    pure token
  else perr (msg ++ " (token actual: " ++ pyRepr token.lexeme ++ ") en " ++ posStr token)

def expectIdentifier (msg : String) : PM Token := do
  let token ← curTok
  if token.kind = TokenKind.identifier then do
    let _ ← advanceTok
    pure token
  else perr (msg ++ " en " ++ posStr token)

/-- Python `int(...)` on the digit-only lexeme of a `NUMBER` token. -/
def digitsToNat (s : String) : Nat :=
  s.toList.foldl (fun acc c => acc * 10 + (c.toNat - Char.toNat '0')) 0

/-- Attribute loop of `_parse_class_definition`. -/
def parseClassAttrLoop : Nat → PM (List String)
  | 0 => throw PErr.outOfFuel
  | fuel + 1 => do
    if !(← checkSymbol "\x7d") then
      let attrToken ← expectIdentifier "Se esperaba nombre de atributo en la clase"
      let rest ← parseClassAttrLoop fuel
      pure (attrToken.lexeme :: rest)
    else pure []

def parseClassDefinition (fuel : Nat) (keyword : Token) : PM ClassDefinition := do
  let nameToken ← expectIdentifier "Se esperaba el nombre de la clase"
  let _ ← expectSymbol "\x7b" "Se esperaba \x27\x7b\x27 en la definición de clase"
  let attributes ← parseClassAttrLoop fuel
  let _ ← expectSymbol "\x7d" "Falta \x27\x7d\x27 para cerrar la definición de clase"
  pure ⟨keyword.line, keyword.column, nameToken.lexeme, attributes⟩

/-- The leading `while self._match_keyword("class")` loop of `parse`. -/
def parseClassDefLoop : Nat → PM (List ClassDefinition)
  | 0 => throw PErr.outOfFuel
  | fuel + 1 => do
    if (← matchKeyword "class") then
      let kw ← previousToken
      let cd ← parseClassDefinition fuel kw
      let rest ← parseClassDefLoop fuel
      pure (cd :: rest)
    else pure []

mutual

/-- `Parser._parse_statement`. -/
def parseStatement : Nat → PM Stmt
  | 0 => throw PErr.outOfFuel
  | fuel + 1 => do
    let token ← curTok
    if token.kind = TokenKind.keyword ∧ token.lexeme = "for" then parseForLoop fuel
    else if token.kind = TokenKind.keyword ∧ token.lexeme = "while" then parseWhileLoop fuel
    else if token.kind = TokenKind.keyword ∧ token.lexeme = "repeat" then parseRepeatUntilLoop fuel
    else if token.kind = TokenKind.keyword ∧ token.lexeme = "if" then parseIfStatement fuel
    else if token.kind = TokenKind.keyword ∧ token.lexeme = "call" then parseCallStatement fuel
    else if token.kind = TokenKind.keyword ∧ token.lexeme = "return" then parseReturnStatement fuel
    else if token.kind = TokenKind.keyword ∧ token.lexeme = "print" then parsePrintStatement fuel
    else if token.kind = TokenKind.identifier then parseAssignment fuel
    else perr ("No se reconoce la sentencia iniciada en " ++ posStr token)

def parseStatementBlock : Nat → List String → PM (List Stmt)
  | 0, _ => throw PErr.outOfFuel
  | fuel + 1, endKeywords => do
    if !(← checkKeyword endKeywords) ∧ !(← checkKind TokenKind.eof) then
      let s ← parseStatement fuel
      let rest ← parseStatementBlock fuel endKeywords
      pure (s :: rest)
    else pure []

def parsePrintStatement : Nat → PM Stmt
  | 0 => throw PErr.outOfFuel
  | fuel + 1 => do
    let printToken ← expectKeyword "print" "Se esperaba \x27print\x27"
    if (← matchSymbol "(") then
      let expr ← parseExpression fuel
      let _ ← expectSymbol ")" "Falta el símbolo \x27)\x27 en la llamada a print"
      pure (Stmt.printStmt printToken.line printToken.column expr)
    else
      let expr ← parseExpression fuel
      pure (Stmt.printStmt printToken.line printToken.column expr)

def parseForLoop : Nat → PM Stmt
  | 0 => throw PErr.outOfFuel
  | fuel + 1 => do
    let keyword ← consumeKeyword "for"
    let iteratorToken ← expectIdentifier "Se esperaba el identificador de control del for"
    let _ ← expectSymbol "🡨" "Falta el símbolo de asignación \x27🡨\x27 en el for"
    let startExpr ← parseExpression fuel
    let _ ← expectKeyword "to" "Se esperaba \x27to\x27 en el for"
    let stopExpr ← parseExpression fuel
    let _ ← expectKeyword "do" "Se esperaba \x27do\x27 en el for"
    let body ← parseLoopBody fuel "for"
    pure (Stmt.forLoop keyword.line keyword.column iteratorToken.lexeme startExpr stopExpr body)

def parseWhileLoop : Nat → PM Stmt
  | 0 => throw PErr.outOfFuel
  | fuel + 1 => do
    let keyword ← consumeKeyword "while"
    let hasParen ← matchSymbol "("
    let condition ← parseExpression fuel
    if hasParen then
      let _ ← expectSymbol ")" "Falta \x27)\x27 en la condición del while"
    let _ ← expectKeyword "do" "Se esperaba \x27do\x27 en el while"
    let body ← parseLoopBody fuel "while"
    pure (Stmt.whileLoop keyword.line keyword.column condition body)

def parseRepeatUntilLoop : Nat → PM Stmt
  | 0 => throw PErr.outOfFuel
  | fuel + 1 => do
    let keyword ← consumeKeyword "repeat"
    let body ← parseStatementBlock fuel ["until"]
    let _ ← expectKeyword "until" "Falta \x27until\x27 al cerrar el repeat"
    let hasParen ← matchSymbol "("
    let condition ← parseExpression fuel
    if hasParen then
      let _ ← expectSymbol ")" "Falta \x27)\x27 en la condición del until"
    pure (Stmt.repeatUntil keyword.line keyword.column body (some condition))

def parseIfStatement : Nat → PM Stmt
  | 0 => throw PErr.outOfFuel
  | fuel + 1 => do
    let keyword ← consumeKeyword "if"
    let hasParen ← matchSymbol "("
    let condition ← parseExpression fuel
    if hasParen then
      let _ ← expectSymbol ")" "Falta \x27)\x27 en la condición del if"
    let _ ← expectKeyword "then" "Se esperaba \x27then\x27"
    let thenBranch ←
      if (← matchKeyword "begin") then do
        let tb ← parseStatementBlock fuel ["end"]
        let _ ← expectKeyword "end" "Falta \x27end\x27 al cerrar el bloque del if"
        pure tb
      else parseInlineStatements fuel ["else", "end"]
    let elseBranch ←
      if (← matchKeyword "else") then
        if (← checkKeyword ["if"]) then do
          let inner ← parseIfStatement fuel
          pure [inner]
        else if (← matchKeyword "begin") then do
          let eb ← parseStatementBlock fuel ["end"]
          let _ ← expectKeyword "end" "Falta \x27end\x27 al cerrar el bloque del else"
          pure eb
        else parseInlineStatements fuel ["end"]
      else pure ([] : List Stmt)
    pure (Stmt.ifStmt keyword.line keyword.column condition thenBranch elseBranch)

def parseCallInvocation : Nat → PM (Token × Token × List Expr)
  | 0 => throw PErr.outOfFuel
  | fuel + 1 => do
    let keyword ← consumeKeyword "call"
    let nameToken ← expectIdentifier "Se esperaba el nombre de la subrutina en CALL"
    let _ ← expectSymbol "(" "Falta \x27(\x27 en la llamada a subrutina"
    let arguments ←
      if !(← checkSymbol ")") then do
        let a ← parseExpression fuel
        let rest ← parseArgCommaLoop fuel
        pure (a :: rest)
      else pure ([] : List Expr)
    let _ ← expectSymbol ")" "Falta \x27)\x27 al cerrar CALL"
    pure (keyword, nameToken, arguments)

def parseArgCommaLoop : Nat → PM (List Expr)
  | 0 => throw PErr.outOfFuel
  | fuel + 1 => do
    if (← matchSymbol ",") then
      let a ← parseExpression fuel
      let rest ← parseArgCommaLoop fuel
      pure (a :: rest)
    else pure []

def parseCallStatement : Nat → PM Stmt
  | 0 => throw PErr.outOfFuel
  | fuel + 1 => do
    let (keyword, nameToken, arguments) ← parseCallInvocation fuel
    pure (Stmt.callStmt keyword.line keyword.column nameToken.lexeme arguments)

def parseCallExpression : Nat → PM Expr
  | 0 => throw PErr.outOfFuel
  | fuel + 1 => do
    let _ ← parseCallInvocation fuel
    -- The source builds `ast_nodes.CallExpression(line=…, column=…, name=…,
    -- arguments=…)`, but the dataclass in ast_nodes.py has no `name` field
    -- (its fields are `callee, arguments`), so Python raises TypeError here.
    throw (PErr.pythonError "TypeError: CallExpression has no field name")

def parseReturnStatement : Nat → PM Stmt
  | 0 => throw PErr.outOfFuel
  | fuel + 1 => do
    let keyword ← consumeKeyword "return"
    if !(← checkKeyword ["end", "else"]) ∧ !(← checkKind TokenKind.eof) then
      let v ← parseExpression fuel
      pure (Stmt.returnStmt keyword.line keyword.column (some v))
    else pure (Stmt.returnStmt keyword.line keyword.column none)

def parseAssignment : Nat → PM Stmt
  | 0 => throw PErr.outOfFuel
  | fuel + 1 => do
    let target ← parseLvalue fuel
    let assignToken ← expectSymbolAny ["🡨", ":="] "Falta el símbolo \x27🡨\x27 o \x27:=\x27 en la asignación"
    let value ← parseExpression fuel
    pure (Stmt.assignment assignToken.line assignToken.column target value)

def parseLvalue : Nat → PM Expr
  | 0 => throw PErr.outOfFuel
  | fuel + 1 => do
    let token ← expectIdentifier "Se esperaba identificador en la asignación"
    parseLvalueLoop fuel (Expr.ident token.line token.column token.lexeme)

def parseLvalueLoop : Nat → Expr → PM Expr
  | 0, _ => throw PErr.outOfFuel
  | fuel + 1, expr => do
    if (← matchSymbol "[") then
      let first ← parseExpression fuel
      let rest ← parseArgCommaLoop fuel
      let _ ← expectSymbol "]" "Falta \x27]\x27 al cerrar acceso a arreglo"
      let expr2 := (first :: rest).foldl
        (fun e ix => Expr.arrayAccess e.line e.column e ix) expr
      parseLvalueLoop fuel expr2
    else if (← matchSymbol ".") then
      let fieldToken ← expectIdentifier "Se esperaba nombre de campo después de \x27.\x27"
      parseLvalueLoop fuel (Expr.fieldAccess expr.line expr.column expr fieldToken.lexeme)
    else pure expr

def parseMandatoryBlock : Nat → PM (List Stmt)
  | 0 => throw PErr.outOfFuel
  | fuel + 1 => do
    let _ ← expectKeyword "begin" "Se esperaba \x27begin\x27 al iniciar bloque"
    let statements ← parseStatementBlock fuel ["end"]
    let _ ← expectKeyword "end" "Falta \x27end\x27 al cerrar bloque"
    pure statements

def parseInlineStatements : Nat → List String → PM (List Stmt)
  | 0, _ => throw PErr.outOfFuel
  | fuel + 1, stopKeywords => do
    if !(← checkKeyword stopKeywords) ∧ !(← checkKind TokenKind.eof) then
      let s ← parseStatement fuel
      let rest ← parseInlineStatements fuel stopKeywords
      pure (s :: rest)
    else pure []

def parseLoopBody : Nat → String → PM (List Stmt)
  | 0, _ => throw PErr.outOfFuel
  | fuel + 1, loopName => do
    if (← matchKeyword "begin") then
      let body ← parseStatementBlock fuel ["end"]
      let _ ← expectKeyword "end" ("Falta \x27end\x27 al cerrar el " ++ loopName)
      pure body
    else
      let inlineBody ← parseInlineStatements fuel ["end"]
      let _ ← expectKeyword "end" ("Falta \x27end\x27 al cerrar el " ++ loopName)
      pure inlineBody

def parseExpression : Nat → PM Expr
  | 0 => throw PErr.outOfFuel
  | fuel + 1 => parseOrExpr fuel

def parseOrExpr : Nat → PM Expr
  | 0 => throw PErr.outOfFuel
  | fuel + 1 => do
    let expr ← parseAndExpr fuel
    parseOrLoop fuel expr

def parseOrLoop : Nat → Expr → PM Expr
  | 0, _ => throw PErr.outOfFuel
  | fuel + 1, expr => do
    if (← matchKeyword "or") then
      let operator ← previousToken
      let rhs ← parseAndExpr fuel
      parseOrLoop fuel (Expr.binOp operator.line operator.column operator.lexeme expr rhs)
    else pure expr

def parseAndExpr : Nat → PM Expr
  | 0 => throw PErr.outOfFuel
  | fuel + 1 => do
    let expr ← parseEquality fuel
    parseAndLoop fuel expr

def parseAndLoop : Nat → Expr → PM Expr
  | 0, _ => throw PErr.outOfFuel
  | fuel + 1, expr => do
    if (← matchKeyword "and") then
      let operator ← previousToken
      let rhs ← parseEquality fuel
      parseAndLoop fuel (Expr.binOp operator.line operator.column operator.lexeme expr rhs)
    else pure expr

def parseEquality : Nat → PM Expr
  | 0 => throw PErr.outOfFuel
  | fuel + 1 => do
    let expr ← parseComparison fuel
    parseEqualityLoop fuel expr

def parseEqualityLoop : Nat → Expr → PM Expr
  | 0, _ => throw PErr.outOfFuel
  | fuel + 1, expr => do
    -- Python evaluates `match("=") or match("<>")` left to right with
    -- short-circuiting; the consuming match is the one reported by
    -- `_previous_token`.
    if (← matchSymbol "=") then
      let operator ← previousToken
      let rhs ← parseComparison fuel
      parseEqualityLoop fuel (Expr.binOp operator.line operator.column operator.lexeme expr rhs)
    else if (← matchSymbol "<>") then
      let operator ← previousToken
      let rhs ← parseComparison fuel
      parseEqualityLoop fuel (Expr.binOp operator.line operator.column operator.lexeme expr rhs)
    else pure expr

def parseComparison : Nat → PM Expr
  | 0 => throw PErr.outOfFuel
  | fuel + 1 => do
    let expr ← parseTerm fuel
    parseComparisonLoop fuel expr

def parseComparisonLoop : Nat → Expr → PM Expr
  | 0, _ => throw PErr.outOfFuel
  | fuel + 1, expr => do
    if (← matchSymbol "<") then
      let opToken ← previousToken
      let rhs ← parseTerm fuel
      parseComparisonLoop fuel (Expr.binOp opToken.line opToken.column "<" expr rhs)
    else if (← matchSymbol ">") then
      let opToken ← previousToken
      let rhs ← parseTerm fuel
      parseComparisonLoop fuel (Expr.binOp opToken.line opToken.column ">" expr rhs)
    else if (← matchSymbol "<=") then
      let opToken ← previousToken
      let rhs ← parseTerm fuel
      parseComparisonLoop fuel (Expr.binOp opToken.line opToken.column "<=" expr rhs)
    else if (← matchSymbol ">=") then
      let opToken ← previousToken
      let rhs ← parseTerm fuel
      parseComparisonLoop fuel (Expr.binOp opToken.line opToken.column ">=" expr rhs)
    else if (← matchSymbol "≤") then
      let opToken ← previousToken
      let rhs ← parseTerm fuel
      parseComparisonLoop fuel (Expr.binOp opToken.line opToken.column "<=" expr rhs)
    else if (← matchSymbol "≥") then
      let opToken ← previousToken
      let rhs ← parseTerm fuel
      parseComparisonLoop fuel (Expr.binOp opToken.line opToken.column ">=" expr rhs)
    else pure expr

def parseTerm : Nat → PM Expr
  | 0 => throw PErr.outOfFuel
  | fuel + 1 => do
    let expr ← parseFactor fuel
    parseTermLoop fuel expr

def parseTermLoop : Nat → Expr → PM Expr
  | 0, _ => throw PErr.outOfFuel
  | fuel + 1, expr => do
    if (← matchSymbol "+") then
      let operator ← previousToken
      let rhs ← parseFactor fuel
      parseTermLoop fuel (Expr.binOp operator.line operator.column operator.lexeme expr rhs)
    else if (← matchSymbol "-") then
      let operator ← previousToken
      let rhs ← parseFactor fuel
      parseTermLoop fuel (Expr.binOp operator.line operator.column operator.lexeme expr rhs)
    else pure expr

def parseFactor : Nat → PM Expr
  | 0 => throw PErr.outOfFuel
  | fuel + 1 => do
    let expr ← parseUnary fuel
    parseFactorLoop fuel expr

def parseFactorLoop : Nat → Expr → PM Expr
  | 0, _ => throw PErr.outOfFuel
  | fuel + 1, expr => do
    if (← matchSymbol "*") then
      let operator ← previousToken
      let rhs ← parseUnary fuel
      parseFactorLoop fuel (Expr.binOp operator.line operator.column operator.lexeme expr rhs)
    else if (← matchSymbol "/") then
      let operator ← previousToken
      let rhs ← parseUnary fuel
      parseFactorLoop fuel (Expr.binOp operator.line operator.column operator.lexeme expr rhs)
    else if (← matchKeyword "mod") then
      let operator ← previousToken
      let rhs ← parseUnary fuel
      parseFactorLoop fuel (Expr.binOp operator.line operator.column operator.lexeme expr rhs)
    else if (← matchKeyword "div") then
      let operator ← previousToken
      let rhs ← parseUnary fuel
      parseFactorLoop fuel (Expr.binOp operator.line operator.column operator.lexeme expr rhs)
    else pure expr

def parseUnary : Nat → PM Expr
  | 0 => throw PErr.outOfFuel
  | fuel + 1 => do
    if (← matchSymbol "-") then
      let operator ← previousToken
      let operand ← parseUnary fuel
      pure (Expr.unOp operator.line operator.column operator.lexeme operand)
    else if (← matchSymbol "+") then
      let operator ← previousToken
      let operand ← parseUnary fuel
      pure (Expr.unOp operator.line operator.column operator.lexeme operand)
    else if (← matchKeyword "not") then
      let operator ← previousToken
      let operand ← parseUnary fuel
      pure (Expr.unOp operator.line operator.column operator.lexeme operand)
    else parsePrimary fuel

def parsePrimary : Nat → PM Expr
  | 0 => throw PErr.outOfFuel
  | fuel + 1 => do
    let token ← curTok
    if token.kind = TokenKind.number then do
      let _ ← advanceTok
      parsePostfix fuel (Expr.num token.line token.column (digitsToNat token.lexeme : Int))
    else if token.kind = TokenKind.string then do
      let _ ← advanceTok
      parsePostfix fuel (Expr.strLit token.line token.column token.lexeme)
    else if token.kind = TokenKind.keyword ∧ token.lexeme = "null" then do
      let _ ← advanceTok
      pure (Expr.nullLit token.line token.column)
    else if token.kind = TokenKind.keyword ∧ (token.lexeme = "t" ∨ token.lexeme = "f") then do
      let _ ← advanceTok
      pure (Expr.boolLit token.line token.column (token.lexeme = "t"))
    else if token.kind = TokenKind.keyword ∧ token.lexeme = "length" then
      parseLengthCall fuel
    else if token.kind = TokenKind.keyword ∧ token.lexeme = "new" then
      parseNewArrayExpression fuel
    else if token.kind = TokenKind.keyword ∧ token.lexeme = "call" then
      parseCallExpression fuel
    else if token.kind = TokenKind.identifier then do
      let _ ← advanceTok
      parsePostfix fuel (Expr.ident token.line token.column token.lexeme)
    else if (← matchSymbol "(") then do
      let expr ← parseExpression fuel
      let _ ← expectSymbol ")" "Falta \x27)\x27 en la expresión"
      pure expr
    else perr ("Expresión inválida cerca de " ++ posStr token)

def parseNewArrayExpression : Nat → PM Expr
  | 0 => throw PErr.outOfFuel
  | fuel + 1 => do
    let _ ← consumeKeyword "new"
    let _ ← expectKeyword "array" "Se esperaba \x27Array\x27 después de \x27new\x27"
    if (← matchSymbol "(") then do
      let _ ← parseExpression fuel
      let _ ← expectSymbol ")" "Falta \x27)\x27 en new Array(tamaño)"
      -- The source returns `ast_nodes.ArrayCreation(...)`, but ast_nodes.py
      -- defines no ArrayCreation class: Python raises AttributeError here.
      throw (PErr.pythonError "AttributeError: ast_nodes.ArrayCreation")
    else if (← matchSymbol "[") then do
      let _ ← parseExpression fuel
      let _ ← expectSymbol "]" "Falta \x27]\x27 en new Array[n]"
      throw (PErr.pythonError "AttributeError: ast_nodes.ArrayCreation")
    else perr "Se esperaba \x27(\x27 o \x27[\x27 después de \x27Array\x27"

def parsePostfix : Nat → Expr → PM Expr
  | 0, _ => throw PErr.outOfFuel
  | fuel + 1, expr => do
    if (← matchSymbol "[") then
      let first ← parseExpression fuel
      let rest ← parseArgCommaLoop fuel
      let _ ← expectSymbol "]" "Falta \x27]\x27 en acceso a arreglo"
      let expr2 := (first :: rest).foldl
        (fun e ix => Expr.arrayAccess e.line e.column e ix) expr
      parsePostfix fuel expr2
    else if (← matchSymbol ".") then
      let fieldToken ← expectIdentifier "Se esperaba identificador tras \x27.\x27"
      parsePostfix fuel (Expr.fieldAccess expr.line expr.column expr fieldToken.lexeme)
    else if (← matchSymbol "..") then
      let right ← parseExpression fuel
      parsePostfix fuel (Expr.rangeExpr expr.line expr.column expr right)
    else pure expr

def parseLengthCall : Nat → PM Expr
  | 0 => throw PErr.outOfFuel
  | fuel + 1 => do
    let _ := fuel
    let token ← consumeKeyword "length"
    let _ ← expectSymbol "(" "Falta \x27(\x27 en length()"
    let nameToken ← expectIdentifier "Se esperaba nombre del arreglo en length()"
    let _ ← expectSymbol ")" "Falta \x27)\x27 en length()"
    pure (Expr.lengthCall token.line token.column nameToken.lexeme)

def parseParameter : Nat → PM Parameter
  | 0 => throw PErr.outOfFuel
  | fuel + 1 => do
    if (← matchKeyword "class") then
      let className := (← expectIdentifier "Se esperaba nombre de clase").lexeme
      let paramName := (← expectIdentifier "Se esperaba nombre del parámetro objeto").lexeme
      -- the source takes line/column from the *current* token after the name
      let cur ← curTok
      pure ⟨cur.line, cur.column, paramName, some className⟩
    else
      let paramNameToken ← expectIdentifier "Se esperaba nombre del parámetro"
      if (← matchSymbol "[") then
        -- note the source quirk: the opening bracket just consumed is not the
        -- one the dimension loop below tests for — it looks for *another* `[`
        let _ ← parseParamDimLoop fuel
        pure ⟨paramNameToken.line, paramNameToken.column, paramNameToken.lexeme, some "array"⟩
      else
        pure ⟨paramNameToken.line, paramNameToken.column, paramNameToken.lexeme, none⟩

def parseParamDimLoop : Nat → PM Unit
  | 0 => throw PErr.outOfFuel
  | fuel + 1 => do
    if (← matchSymbol "[") then
      if !(← checkSymbol "]") then
        let _ ← parseExpression fuel
      let _ ← expectSymbol "]" "Falta \x27]\x27 en dimensión de arreglo"
      parseParamDimLoop fuel
    else pure ()

def parseParamList : Nat → PM (List Parameter)
  | 0 => throw PErr.outOfFuel
  | fuel + 1 => do
    if !(← checkSymbol ")") then
      let p ← parseParameter fuel
      let rest ← parseParamCommaLoop fuel
      pure (p :: rest)
    else pure []

def parseParamCommaLoop : Nat → PM (List Parameter)
  | 0 => throw PErr.outOfFuel
  | fuel + 1 => do
    if (← matchSymbol ",") then
      let p ← parseParameter fuel
      let rest ← parseParamCommaLoop fuel
      pure (p :: rest)
    else pure []

def parseProcedure : Nat → PM Procedure
  | 0 => throw PErr.outOfFuel
  | fuel + 1 => do
    let nameToken ← expectIdentifier "Se esperaba el nombre del procedimiento"
    let _ ← expectSymbol "(" "Se esperaba \x27(\x27 después del nombre del procedimiento"
    let parameters ← parseParamList fuel
    let _ ← expectSymbol ")" "Se esperaba \x27)\x27 para cerrar los parámetros"
    let body ← parseMandatoryBlock fuel
    pure ⟨nameToken.line, nameToken.column, nameToken.lexeme, parameters, body⟩

end

/-- Procedure-definition loop before the main `begin` (lines 68–118 of
parser.py).  Both sub-branches of the bare-identifier case that do not
find a `(` restore the saved index and leave the loop. -/
def parsePreProcLoop : Nat → String → List Procedure → PM (List Procedure)
  | 0, _, _ => throw PErr.outOfFuel
  | fuel + 1, algorithmName, acc => do
    if !(← checkKeyword ["begin"]) ∧ !(← checkKind TokenKind.eof) then
      if (← matchKeyword "procedimiento") then
        let nameToken ← expectIdentifier "Se esperaba el nombre del procedimiento después de \x27Procedimiento\x27"
        let _ ← expectSymbol "(" "Se esperaba \x27(\x27 después del nombre del procedimiento"
        let parameters ← parseParamList fuel
        let _ ← expectSymbol ")" "Se esperaba \x27)\x27 para cerrar los parámetros"
        let body ← parseMandatoryBlock fuel
        let proc : Procedure := ⟨nameToken.line, nameToken.column, nameToken.lexeme, parameters, body⟩
        parsePreProcLoop fuel algorithmName (acc ++ [proc])
      else if (← curTok).kind = TokenKind.identifier then
        let savedIndex := (← get).idx
        let _ ← advanceTok
        if (← checkSymbol "(") then
          modify (fun s => { s with idx := savedIndex })
          let proc ← parseProcedure fuel
          parsePreProcLoop fuel algorithmName (acc ++ [proc])
        else
          modify (fun s => { s with idx := savedIndex })
          pure acc
      else pure acc
    else pure acc

/-- Procedure-definition loop after the main block (lines 175–217). -/
def parsePostProcLoop : Nat → List Procedure → PM (List Procedure)
  | 0, _ => throw PErr.outOfFuel
  | fuel + 1, acc => do
    if !(← checkKind TokenKind.eof) then
      if (← matchKeyword "procedimiento") then
        let nameToken ← expectIdentifier "Se esperaba el nombre del procedimiento después de \x27Procedimiento\x27"
        let _ ← expectSymbol "(" "Se esperaba \x27(\x27 después del nombre del procedimiento"
        let parameters ← parseParamList fuel
        let _ ← expectSymbol ")" "Se esperaba \x27)\x27 para cerrar los parámetros"
        let body ← parseMandatoryBlock fuel
        let proc : Procedure := ⟨nameToken.line, nameToken.column, nameToken.lexeme, parameters, body⟩
        parsePostProcLoop fuel (acc ++ [proc])
      else if (← curTok).kind = TokenKind.identifier then
        let savedIndex := (← get).idx
        let _ ← advanceTok
        if (← checkSymbol "(") then
          modify (fun s => { s with idx := savedIndex })
          let proc ← parseProcedure fuel
          parsePostProcLoop fuel (acc ++ [proc])
        else
          modify (fun s => { s with idx := savedIndex })
          pure acc
      else pure acc
    else pure acc

/-- Local-declaration loop after the main `begin` (lines 146–168).  Both
productive branches call Parser methods that do not exist
(`_parse_new_array_declaration`, `_parse_array_declaration`): Python
raises AttributeError there, so no `Declaration` is ever produced. -/
def parseDeclLoop : Nat → PM (List Declaration)
  | 0 => throw PErr.outOfFuel
  | _fuel + 1 => do
    let condNew ← checkKeyword ["new"]
    let condArr ← do
      let t ← curTok
      if t.kind = TokenKind.identifier then checkAheadArrayDecl else pure false
    if condNew ∨ condArr then
      if (← matchKeyword "new") then
        throw (PErr.pythonError "AttributeError: _parse_new_array_declaration")
      else if (← curTok).kind = TokenKind.identifier then
        let savedIndex := (← get).idx
        let _ ← advanceTok
        if (← checkSymbol "[") then
          modify (fun s => { s with idx := savedIndex })
          throw (PErr.pythonError "AttributeError: _parse_array_declaration")
        else
          modify (fun s => { s with idx := savedIndex })
          pure []
      else pure []
    else pure []

/-- `Parser.parse` (lines 36–229). -/
def parseTop : Nat → PM Program
  | 0 => throw PErr.outOfFuel
  | fuel + 1 => do
    let classDefinitions ← parseClassDefLoop fuel
    let mut algorithmName : String := ""
    if (← matchKeyword "algoritmo") then
      let nameToken ← expectIdentifier "Se esperaba el nombre del algoritmo después de \x27algoritmo\x27"
      algorithmName := nameToken.lexeme
      if (← matchSymbol "(") then
        let _ ← parseParamList fuel
        let _ ← expectSymbol ")" "Falta \x27)\x27 después de los parámetros del algoritmo"
    let procsPre ← parsePreProcLoop fuel algorithmName []
    if algorithmName = "" ∧ (← curTok).kind = TokenKind.identifier then
      let savedIndex := (← get).idx
      let nameToken ← curTok
      let _ ← advanceTok
      if (← matchSymbol "(") then
        let _ ← parseParamList fuel
        let _ ← expectSymbol ")" "Falta \x27)\x27 después de los parámetros del algoritmo"
      if (← checkKeyword ["begin"]) then
        algorithmName := nameToken.lexeme
      else
        -- only the index is restored; `_previous` keeps its speculative value
        modify (fun s => { s with idx := savedIndex })
    let _ ← expectKeyword "begin" "Se esperaba \x27begin\x27 al iniciar el programa"
    let declarations ← parseDeclLoop fuel
    let body ← parseStatementBlock fuel ["end"]
    let _ ← expectKeyword "end" "Se esperaba \x27end\x27 para cerrar el programa"
    let procedures ← parsePostProcLoop fuel procsPre
    let _ ← expectTok TokenKind.eof "Se esperaban más sentencias? Revisa la estructura general"
    pure { line := 1, column := 1, name := algorithmName,
           classDefinitions := classDefinitions, declarations := declarations,
           procedures := procedures, body := body }

/-- Fuel that is far more than the number of recursive-descent calls the
inputs analysed in this file can trigger (each parser routine consumes at
least one token before re-entering itself through `parseStatement`). -/
def parseFuel (ts : List Token) : Nat := (ts.length + 2) * 32 + 64

/-- `parse_program` / `Parser(source).parse()`.  The outer `Option` is
inherited from `tokenize` (`none` = the lexer stalls); `PErr.lexError`
is the `LexerError` escaping `Parser.__init__`. -/
def parseProgram (source : String) : Option (Except PErr Program) :=
  match tokenize source with
  | none => none
  | some (Except.error m) => some (Except.error (PErr.lexError m))
  | some (Except.ok ts) =>
    some (((parseTop (parseFuel ts)).run ⟨ts, 0, none⟩).map Prod.fst)

/-- Whether the outcome of `parseProgram` is a `ParserError`. -/
def isParserError (r : Option (Except PErr Program)) : Bool :=
  match r with
  | some (Except.error (PErr.parserError _)) => true
  | _ => false

/-! ## Complexity engine (src/backend/src/analysis/complexity_engine.py) -/

def OMEGA : String := "Ω"

def THETA : String := "Θ"

structure ComplexityResult where
  best_case : String
  worst_case : String
  average_case : String
  annotations : List (String × String)
deriving DecidableEq, Repr

/-- `base^n * n^degree * (log n)^log_power`; `exponential_base = 0` means
no exponential factor. -/
structure ComplexityMeasure where
  degree : Int := 0
  log_power : Int := 0
  exponential_base : Int := 0
deriving DecidableEq, Repr

def ComplexityMeasure.dominates (self other : ComplexityMeasure) : Bool :=
  if 0 < self.exponential_base ∧ other.exponential_base = 0 then true
  else if self.exponential_base = 0 ∧ 0 < other.exponential_base then false
  else if 0 < self.exponential_base ∧ 0 < other.exponential_base then
    other.exponential_base ≤ self.exponential_base
  else if ¬ (self.degree = other.degree) then other.degree < self.degree
  else other.log_power ≤ self.log_power

def ComplexityMeasure.maxWith (self other : ComplexityMeasure) : ComplexityMeasure :=
  if self.dominates other then self else other

def ComplexityMeasure.minWith (self other : ComplexityMeasure) : ComplexityMeasure :=
  if self.dominates other then other else self

/-- `add_degree` rebuilds the measure from `degree` and `log_power` only:
`exponential_base` silently resets to its default `0`. -/
def ComplexityMeasure.addDegree (self : ComplexityMeasure) (amount : Int) : ComplexityMeasure :=
  { degree := self.degree + amount, log_power := self.log_power, exponential_base := 0 }

/-- `add_log` has the same quirk as `add_degree`. -/
def ComplexityMeasure.addLog (self : ComplexityMeasure) (amount : Int) : ComplexityMeasure :=
  { degree := self.degree, log_power := self.log_power + amount, exponential_base := 0 }

/-- `ComplexityMeasure.to_notation`. -/
def ComplexityMeasure.toNotationStr (self : ComplexityMeasure) (pfx : String) : String :=
  if self.degree = 0 ∧ self.log_power = 0 ∧ self.exponential_base = 0 then pfx ++ "(1)"
  else
    let factors : List String :=
      (if 0 < self.exponential_base then [toString self.exponential_base ++ "^n"] else [])
      ++ (if 0 < self.degree then
            [if self.degree = 1 then "n" else "n^" ++ toString self.degree] else [])
      ++ (if 0 < self.log_power then
            [if self.log_power = 1 then "log n" else "(log n)^" ++ toString self.log_power] else [])
    let expr := if factors.isEmpty then "1" else String.intercalate " " factors
    pfx ++ "(" ++ expr ++ ")"

structure CaseComplexity where
  best : ComplexityMeasure
  worst : ComplexityMeasure
  average : ComplexityMeasure
deriving DecidableEq, Repr

def CaseComplexity.constant : CaseComplexity := ⟨{}, {}, {}⟩

def CaseComplexity.combineSequence (self other : CaseComplexity) : CaseComplexity :=
  ⟨self.best.maxWith other.best, self.worst.maxWith other.worst,
   self.average.maxWith other.average⟩

def CaseComplexity.combineBranch (self other : CaseComplexity) : CaseComplexity :=
  ⟨self.best.minWith other.best, self.worst.maxWith other.worst,
   self.average.maxWith other.average⟩

def CaseComplexity.scaleByDegree (self : CaseComplexity) (degree : Int) : CaseComplexity :=
  if degree = 0 then self
  else ⟨self.best.addDegree degree, self.worst.addDegree degree,
        self.average.addDegree degree⟩

def CaseComplexity.maxWith (self other : CaseComplexity) : CaseComplexity :=
  ⟨self.best.maxWith other.best, self.worst.maxWith other.worst,
   self.average.maxWith other.average⟩

/-- `AnalysisContext`: the iterator set is written by `with_iterator` but
never read anywhere in the engine; the Python `set` is modelled as a
list. -/
structure AnalysisContext where
  loopIterators : List String
deriving DecidableEq, Repr

def AnalysisContext.withIterator (self : AnalysisContext) (iterator : String) : AnalysisContext :=
  ⟨iterator :: self.loopIterators⟩

def strLower (s : String) : String := ⟨s.toList.map Char.toLower⟩

/-- Contiguous-sublist test (Boolean `isInfixOf`). -/
def listInfix (sub : List Char) : List Char → Bool
  | [] => sub.isEmpty
  | c :: rest => List.isPrefixOf sub (c :: rest) || listInfix sub rest

/-- Python substring containment `sub in s`. -/
def strContains (s sub : String) : Bool := listInfix sub.toList s.toList

def relationalOps : List String := ["<", "<=", ">", ">=", "="]

/-- `ComplexityEngine._expression_depends_on_input`. -/
def expressionDependsOnInput (ignore : List String) : Expr → Bool
  | .num _ _ _ => false
  | .boolLit _ _ _ => false
  | .nullLit _ _ => false
  | .strLit _ _ _ => false
  | .ident _ _ name => !(ignore.contains name)
  | .lengthCall _ _ _ => true
  | .arrayAccess _ _ base index =>
    expressionDependsOnInput ignore base || expressionDependsOnInput ignore index
  | .fieldAccess _ _ base _ => expressionDependsOnInput ignore base
  | .rangeExpr _ _ start stop =>
    expressionDependsOnInput ignore start || expressionDependsOnInput ignore stop
  | .unOp _ _ _ operand => expressionDependsOnInput ignore operand
  | .binOp _ _ _ left right =>
    expressionDependsOnInput ignore left || expressionDependsOnInput ignore right
  | .callExpr _ _ _ _ => true  -- the source's trailing `return True` default

/-- `ComplexityEngine._infer_iteration_degree`. -/
def inferIterationDegree (start stop : Expr) (ignore : List String) : Int :=
  if !(expressionDependsOnInput ignore stop) then
    if expressionDependsOnInput ignore start then 1 else 0
  else 1

/-- `ComplexityEngine._infer_condition_degree`. -/
def inferConditionDegree (expr? : Option Expr) (ignore : List String) : Int :=
  match expr? with
  | none => 1
  | some expr =>
    match expr with
    | .binOp _ _ op left right =>
      if relationalOps.contains op then
        if expressionDependsOnInput ignore left || expressionDependsOnInput ignore right
        then 1 else 0
      else if expressionDependsOnInput ignore expr then 1 else 0
    | _ => if expressionDependsOnInput ignore expr then 1 else 0

/-- `ComplexityEngine._extract_loop_variable`. -/
def extractLoopVariable : Expr → Option String
  | .binOp _ _ op left right =>
    if relationalOps.contains op then
      match left with
      | .ident _ _ n => some n
      | _ =>
        match right with
        | .ident _ _ n => some n
        | _ => none
    else none
  | _ => none

/-- `ComplexityEngine._assignment_progresses_variable`. -/
def assignmentProgresses (target value : Expr) (varName : String) : Bool :=
  match target with
  | .ident _ _ n =>
    if n = varName then
      match value with
      | .binOp _ _ op (.ident _ _ ln) (.num _ _ _) => ln = varName ∧ (op = "+" ∨ op = "-")
      | _ => false
    else false
  | _ => false

/-- `ComplexityEngine._body_progresses_variable`. -/
def bodyProgressesVariable : List Stmt → String → Bool
  | [], _ => false
  | stmt :: rest, varName =>
    (match stmt with
     | .assignment _ _ target value => assignmentProgresses target value varName
     | .ifStmt _ _ _ tb eb =>
       bodyProgressesVariable tb varName || bodyProgressesVariable eb varName
     | _ => false) || bodyProgressesVariable rest varName

def flagKeywords : List String := ["encontr", "found", "flag", "exist"]

def hasFlagName (n : String) : Bool :=
  flagKeywords.any (fun k => strContains (strLower n) k)

/-- `ComplexityEngine._condition_has_exit_flag`. -/
def conditionHasExitFlag : Option Expr → Bool
  | none => false
  | some (.binOp _ _ op left right) =>
    if op = "and" ∨ op = "or" then
      conditionHasExitFlag (some left) || conditionHasExitFlag (some right)
    else if op = "=" then
      (match left with | .ident _ _ n => hasFlagName n | _ => false)
      || (match right with | .ident _ _ n => hasFlagName n | _ => false)
    else false
  | some _ => false

/-- `ComplexityEngine._extract_flag_names` (a Python set used only for
membership tests, modelled as a list). -/
def extractFlagNames : Expr → List String
  | .binOp _ _ op left right =>
    if op = "and" ∨ op = "or" then extractFlagNames left ++ extractFlagNames right
    else if op = "=" then
      (match left with | .ident _ _ n => if hasFlagName n then [n] else [] | _ => [])
      ++ (match right with | .ident _ _ n => if hasFlagName n then [n] else [] | _ => [])
    else []
  | _ => []

/-- Scanning part of `ComplexityEngine._body_can_set_exit_flag` (the
recursion passes the same extracted names down unchanged). -/
def bodyCanSetFlagNames : List Stmt → List String → Bool
  | [], _ => false
  | stmt :: rest, names =>
    (match stmt with
     | .assignment _ _ (.ident _ _ n) _ => names.contains n
     | .ifStmt _ _ _ tb eb =>
       bodyCanSetFlagNames tb names || bodyCanSetFlagNames eb names
     | _ => false) || bodyCanSetFlagNames rest names

/-- `ComplexityEngine._body_can_set_exit_flag`. -/
def bodyCanSetExitFlag (statements : List Stmt) (condition : Expr) : Bool :=
  let flagNames := extractFlagNames condition
  if flagNames.isEmpty then false else bodyCanSetFlagNames statements flagNames

/-- `ComplexityEngine._has_early_exit_condition`. -/
def hasEarlyExitCondition (condition : Expr) (body : List Stmt) : Bool :=
  conditionHasExitFlag (some condition) && bodyCanSetExitFlag body condition

mutual

/-- `ComplexityEngine._analyze_statement` (with `_analyze_for`,
`_analyze_while`, `_analyze_repeat`, `_analyze_if` inlined at their call
sites).  `PrintStatement` has no `isinstance` arm in the source and falls
to the constant fallback. -/
def analyzeStatement : Stmt → AnalysisContext → CaseComplexity
  | .forLoop _ _ iterator start stop body, ctx =>
    let bodyCase := analyzeBlockAcc CaseComplexity.constant body (ctx.withIterator iterator)
    bodyCase.scaleByDegree (inferIterationDegree start stop [iterator])
  | .whileLoop _ _ condition body, ctx =>
    let bodyCase := analyzeBlockAcc CaseComplexity.constant body ctx
    let degree : Int :=
      match extractLoopVariable condition with
      | some loopVar =>
        if bodyProgressesVariable body loopVar then
          inferConditionDegree (some condition) [loopVar]
        else 1
      | none => 1
    let best :=
      if hasEarlyExitCondition condition body then ({} : ComplexityMeasure)
      else bodyCase.best.addDegree degree
    ⟨best, bodyCase.worst.addDegree degree, bodyCase.average.addDegree degree⟩
  | .repeatUntil _ _ body condition, ctx =>
    let bodyCase := analyzeBlockAcc CaseComplexity.constant body ctx
    let degree : Int :=
      match condition with
      | some c => inferConditionDegree (some c) []
      | none => 1
    bodyCase.scaleByDegree degree
  | .ifStmt _ _ _ thenBranch elseBranch, ctx =>
    (analyzeBlockAcc CaseComplexity.constant thenBranch ctx).combineBranch
      (analyzeBlockAcc CaseComplexity.constant elseBranch ctx)
  | .callStmt _ _ _ _, _ => CaseComplexity.constant
  | .returnStmt _ _ _, _ => CaseComplexity.constant
  | .assignment _ _ _ _, _ => CaseComplexity.constant
  | .printStmt _ _ _, _ => CaseComplexity.constant

/-- `ComplexityEngine._analyze_block`: left fold of `combine_sequence`
starting from the constant case. -/
def analyzeBlockAcc : CaseComplexity → List Stmt → AnalysisContext → CaseComplexity
  | acc, [], _ => acc
  | acc, stmt :: rest, ctx =>
    analyzeBlockAcc (acc.combineSequence (analyzeStatement stmt ctx)) rest ctx

end

def analyzeBlock (statements : List Stmt) (ctx : AnalysisContext) : CaseComplexity :=
  analyzeBlockAcc CaseComplexity.constant statements ctx

/-- `ComplexityEngine._count_recursive_calls` (its visitor descends into
`if`, `while` and `for` bodies but not into `repeat` bodies). -/
def countRecursiveCallsIn (procName : String) : List Stmt → Nat
  | [] => 0
  | stmt :: rest =>
    (match stmt with
     | .callStmt _ _ name _ =>
       if strLower name = strLower procName ∨ name = "self" then 1 else 0
     | .ifStmt _ _ _ tb eb =>
       countRecursiveCallsIn procName tb + countRecursiveCallsIn procName eb
     | .whileLoop _ _ _ body => countRecursiveCallsIn procName body
     | .forLoop _ _ _ _ _ body => countRecursiveCallsIn procName body
     | _ => 0) + countRecursiveCallsIn procName rest

def countRecursiveCalls (proc : Procedure) : Nat :=
  countRecursiveCallsIn proc.name proc.body

/-- `ComplexityEngine._has_loops` (descends only into `if` branches; any
loop found at those levels answers immediately). -/
def hasLoopsIn : List Stmt → Bool
  | [] => false
  | stmt :: rest =>
    (match stmt with
     | .whileLoop _ _ _ _ => true
     | .forLoop _ _ _ _ _ _ => true
     | .repeatUntil _ _ _ _ => true
     | .ifStmt _ _ _ tb eb => hasLoopsIn tb || hasLoopsIn eb
     | _ => false) || hasLoopsIn rest

/-- `ComplexityEngine._contains_comparison`. -/
def containsComparison : Expr → Bool
  | .binOp _ _ op left right =>
    if relationalOps.contains op then true
    else containsComparison left || containsComparison right
  | _ => false

/-- `ComplexityEngine._has_partition_pattern`. -/
def hasPartitionIn : List Stmt → Bool
  | [] => false
  | stmt :: rest =>
    (match stmt with
     | .whileLoop _ _ condition body =>
       containsComparison condition || hasPartitionIn body
     | .callStmt _ _ name _ =>
       strContains (strLower name) "particion" || strContains (strLower name) "partition"
     | .ifStmt _ _ _ tb eb => hasPartitionIn tb || hasPartitionIn eb
     | .forLoop _ _ _ _ _ body => hasPartitionIn body
     | _ => false) || hasPartitionIn rest

/-- `ComplexityEngine._contains_midpoint_calculation`. -/
def containsMidpointCalculation (statements : List Stmt) : Bool :=
  statements.any fun stmt =>
    match stmt with
    | .assignment _ _ _ (.binOp _ _ op (.binOp _ _ innerOp _ _) _) =>
      (op = "/" ∨ op = "div") ∧ innerOp = "+"
    | _ => false

/-- `ComplexityEngine._has_binary_search_condition`. -/
def hasBinarySearchCondition (proc : Procedure) : Bool :=
  proc.body.any fun stmt =>
    match stmt with
    | .ifStmt _ _ _ tb eb =>
      containsMidpointCalculation tb || containsMidpointCalculation eb
    | _ => false

/-- `ComplexityEngine._has_early_return_in_condition`. -/
def hasEarlyReturnInCondition (proc : Procedure) : Bool :=
  proc.body.any fun stmt =>
    match stmt with
    | .ifStmt _ _ _ tb _ =>
      tb.any (fun s => match s with | .returnStmt _ _ _ => true | _ => false)
    | _ => false

/-- `ComplexityEngine._has_linear_recursive_calls`. -/
def hasLinearRecursiveCallsIn (procName : String) : List Stmt → Bool
  | [] => false
  | stmt :: rest =>
    (match stmt with
     | .callStmt _ _ name args =>
       if strLower name = strLower procName then
         args.any (fun a => match a with | .binOp _ _ "-" _ _ => true | _ => false)
       else false
     | .ifStmt _ _ _ tb eb =>
       hasLinearRecursiveCallsIn procName tb || hasLinearRecursiveCallsIn procName eb
     | _ => false) || hasLinearRecursiveCallsIn procName rest

/-- `ComplexityEngine._detect_recursive_pattern`.  The source's trailing
`return "generic_divide"` is unreachable: every count is covered by the
branches above it. -/
def detectRecursivePattern (proc : Procedure) : String :=
  let recursiveCalls := countRecursiveCalls proc
  if recursiveCalls = 0 then "unknown"
  else if 2 ≤ recursiveCalls then
    let hasLoops := hasLoopsIn proc.body
    let hasPartition := hasPartitionIn proc.body
    let hasEarlyReturn := hasEarlyReturnInCondition proc
    if !hasLoops && !hasPartition && hasEarlyReturn then "fibonacci"
    else if recursiveCalls = 2 ∧ !hasLoops && !hasPartition
            && hasLinearRecursiveCallsIn proc.name proc.body then "hanoi"
    else if hasPartition then "quicksort"
    else "mergesort"
  else
    if hasBinarySearchCondition proc then "binarysearch" else "linear"

/-! ### Pattern library (src/backend/src/analysis/pattern_library.py) -/

structure PatternMatch where
  name : String
  description : String
deriving DecidableEq, Repr

/-- `LoopRecognizer._contains_loop`. -/
def containsLoopTop : List Stmt → Bool
  | [] => false
  | stmt :: rest =>
    (match stmt with
     | .forLoop _ _ _ _ _ _ => true
     | .whileLoop _ _ _ _ => true
     | .repeatUntil _ _ _ _ => true
     | .ifStmt _ _ _ tb eb => containsLoopTop tb || containsLoopTop eb
     | _ => false) || containsLoopTop rest

def loopRecognizerMatches (program : Program) : List PatternMatch :=
  if containsLoopTop program.body then
    [⟨"loop-structure", "El programa contiene estructuras iterativas."⟩]
  else []

mutual

/-- `RecursionRecognizer._expression_has_recursive_call` (the source's
`any(...)` over call arguments is the explicit list recursion below). -/
def exprHasRecursiveCall (known : List String) : Expr → Bool
  | .callExpr _ _ callee args =>
    (match callee with | .ident _ _ n => known.contains (strLower n) | _ => false)
    || exprListHasRecursiveCall known args
  | .binOp _ _ _ left right =>
    exprHasRecursiveCall known left || exprHasRecursiveCall known right
  | .unOp _ _ _ operand => exprHasRecursiveCall known operand
  | .arrayAccess _ _ base index =>
    exprHasRecursiveCall known base || exprHasRecursiveCall known index
  | .fieldAccess _ _ base _ => exprHasRecursiveCall known base
  | .rangeExpr _ _ start stop =>
    exprHasRecursiveCall known start || exprHasRecursiveCall known stop
  | _ => false

def exprListHasRecursiveCall (known : List String) : List Expr → Bool
  | [] => false
  | e :: rest => exprHasRecursiveCall known e || exprListHasRecursiveCall known rest

end

/-- `RecursionRecognizer._has_recursive_call`. -/
def stmtsHaveRecursiveCall (known : List String) : List Stmt → Bool
  | [] => false
  | stmt :: rest =>
    (match stmt with
     | .callStmt _ _ name _ => known.contains (strLower name)
     | .assignment _ _ _ value => exprHasRecursiveCall known value
     | .returnStmt _ _ value =>
       match value with
       | some v => exprHasRecursiveCall known v
       | none => false
     | .ifStmt _ _ _ tb eb =>
       stmtsHaveRecursiveCall known tb || stmtsHaveRecursiveCall known eb
     | .forLoop _ _ _ _ _ body => stmtsHaveRecursiveCall known body
     | .whileLoop _ _ _ body => stmtsHaveRecursiveCall known body
     | .repeatUntil _ _ body _ => stmtsHaveRecursiveCall known body
     | _ => false) || stmtsHaveRecursiveCall known rest

/-- `RecursionRecognizer.match` (set of known names modelled as a list;
adding a procedure's own lowered name is a no-op, the set already holds
every procedure name). -/
def recursionRecognizerMatches (program : Program) : List PatternMatch :=
  let known := program.procedures.map (fun p => strLower p.name) ++ ["self", "recurse"]
  (if stmtsHaveRecursiveCall known program.body then
     [⟨"recursion", "Se detecto un patron recursivo."⟩]
   else [])
  ++ (match program.procedures.find? (fun p => stmtsHaveRecursiveCall known p.body) with
      | some p => [⟨"recursion", "Se detecto recursividad en la subrutina " ++ p.name ++ "."⟩]
      | none => [])

/-- `PatternLibrary.default().match_program`. -/
def matchProgram (program : Program) : List PatternMatch :=
  loopRecognizerMatches program ++ recursionRecognizerMatches program

/-- First procedure with at least one recursive call — the `recursive_proc`
selection loop in `ComplexityEngine.analyze`. -/
def firstRecursiveProc (procs : List Procedure) : Option Procedure :=
  procs.find? (fun p => decide (0 < countRecursiveCalls p))

def defaultProcedure : Procedure := ⟨0, 0, "", [], []⟩

/-! `ComplexityEngine.analyze` (the `raw_source` parameter and the debug
`print` are irrelevant to the produced value and dropped).  The
straight-line locals of the Python method are named definitions here; the
final `analyze` assembles them exactly as the source does. -/

/-- `has_recursion` as first set from the pattern-library matches. -/
def patternLibHasRecursion (program : Program) : Bool :=
  (matchProgram program).any (fun m => m.name = "recursion")

/-- The manual-detection loop: runs only when the library found nothing
and procedures exist; picks the first procedure with a recursive call. -/
def manualRecProc (program : Program) : Option Procedure :=
  if !patternLibHasRecursion program && !program.procedures.isEmpty then
    firstRecursiveProc program.procedures
  else none

/-- Final value of `has_recursion` in `analyze`. -/
def analysisHasRecursion (program : Program) : Bool :=
  patternLibHasRecursion program || (manualRecProc program).isSome

/-- Final value of the `pattern_summary` annotation. -/
def analysisPatternSummary (program : Program) : String :=
  match manualRecProc program with
  | some proc => "Se detecto recursividad en la subrutina " ++ proc.name ++ "."
  | none =>
    let patternMatches := matchProgram program
    if !patternMatches.isEmpty then
      String.intercalate "; " (patternMatches.map (·.description))
    else "No se detectaron patrones relevantes."

/-- `program_case` before the recursion heuristic: the main body folded
with every procedure body via dominance max. -/
def analysisStructuralCase (program : Program) : CaseComplexity :=
  let ctx : AnalysisContext := ⟨[]⟩
  program.procedures.foldl
    (fun acc proc => acc.maxWith (analyzeBlock proc.body ctx))
    (analyzeBlock program.body ctx)

/-- `recursive_pattern` in `analyze`. -/
def analysisRecursivePattern (program : Program) : String :=
  if analysisHasRecursion program && !program.procedures.isEmpty then
    match firstRecursiveProc program.procedures with
    | some p => detectRecursivePattern p
    | none => detectRecursivePattern (program.procedures.getLastD defaultProcedure)
  else "unknown"

/-- The fixed `recursion_case` table of `analyze`. -/
def recursionCaseFor (pat : String) : CaseComplexity :=
  if pat = "fibonacci" then ⟨⟨0, 0, 2⟩, ⟨0, 0, 2⟩, ⟨0, 0, 2⟩⟩
  else if pat = "hanoi" then ⟨⟨0, 0, 2⟩, ⟨0, 0, 2⟩, ⟨0, 0, 2⟩⟩
  else if pat = "quicksort" then ⟨⟨1, 1, 0⟩, ⟨2, 0, 0⟩, ⟨1, 1, 0⟩⟩
  else if pat = "mergesort" then ⟨⟨1, 1, 0⟩, ⟨1, 1, 0⟩, ⟨1, 1, 0⟩⟩
  else if pat = "binarysearch" then ⟨⟨0, 0, 0⟩, ⟨0, 1, 0⟩, ⟨0, 1, 0⟩⟩
  else ⟨⟨1, 0, 0⟩, ⟨1, 1, 0⟩, ⟨1, 1, 0⟩⟩

/-- `program_case` after the recursion heuristic has been applied. -/
def analysisFinalCase (program : Program) : CaseComplexity :=
  if analysisHasRecursion program then
    (analysisStructuralCase program).maxWith
      (recursionCaseFor (analysisRecursivePattern program))
  else analysisStructuralCase program

/-- The `heuristica` annotation (the two parts joined with a space). -/
def analysisHeuristica (program : Program) : String :=
  let programCase := analysisFinalCase program
  "Grado polinomico estimado -> mejor: " ++ toString programCase.best.degree
  ++ ", peor: " ++ toString programCase.worst.degree
  ++ ", promedio: " ++ toString programCase.average.degree ++ "."
  ++ (if analysisHasRecursion program then
        " Se aplicó heurística recursiva."
        ++ (if analysisRecursivePattern program ≠ "unknown" then
              " Patrón: " ++ analysisRecursivePattern program ++ "."
            else "")
      else "")

/-- `ComplexityEngine.analyze`. -/
def analyze (program : Program) : ComplexityResult :=
  let programCase := analysisFinalCase program
  { best_case := programCase.best.toNotationStr OMEGA
    worst_case := programCase.worst.toNotationStr "O"
    average_case := programCase.average.toNotationStr THETA
    annotations :=
      [("pattern_summary", analysisPatternSummary program),
       ("heuristica", analysisHeuristica program),
       ("nota", "Complejidad estimada mediante analisis estructural.")] }

/-! ## Recurrence solver (src/backend/src/analysis/recurrence_solver.py) -/

structure RecurrenceRelation where
  identifier : String
  recurrence : String
  base_case : String
  notes : String
deriving DecidableEq, Repr

/-- `RecurrenceSolution`.  The `math_steps` field — a display-only
derivation log of label/value string pairs for the frontend, never used
for computation — is omitted from the embedding because the generic
branches interpolate rounded floats into it; no claim inspects it. -/
structure RecurrenceSolution where
  theta : String
  upper : String
  lower : String
  justification : String
  cases : List (String × String)
deriving DecidableEq, Repr

/-- Python `recurrence.replace(" ", "")`. -/
def stripSpaces (s : String) : String := ⟨s.toList.filter (fun c => ¬ (c = ' '))⟩

/-- Case-insensitive letter match (the regex runs with `re.IGNORECASE`). -/
def charLowerEq (c t : Char) : Bool := Char.toLower c = t

/-- One anchored attempt of the pattern
`T\(n\)=(\d*\*?)?T\(n/(\d+)\)\+(.*)` at the head of `l`.  The optional
group `(\d*\*?)?` is parsed greedily: the literal after it must be
`T`/`t`, which neither a digit nor `*` can be, so greedy parsing is
equivalent to the regex engine's backtracking here.  `.` does not match a
newline, so group 3 is the rest of the current line. -/
def matchMasterAt (l : List Char) : Option (List Char × List Char × List Char) :=
  match l with
  | t :: p1 :: n :: p2 :: eq :: rest =>
    if charLowerEq t 't' ∧ p1 = '(' ∧ charLowerEq n 'n' ∧ p2 = ')' ∧ eq = '=' then
      let digits := rest.takeWhile pyIsDigit
      let rest1 := rest.dropWhile pyIsDigit
      let (star, rest2) :=
        match rest1 with
        | '*' :: r => (['*'], r)
        | _ => (([] : List Char), rest1)
      let group1 := digits ++ star
      match rest2 with
      | t2 :: q1 :: n2 :: slash :: rest3 =>
        if charLowerEq t2 't' ∧ q1 = '(' ∧ charLowerEq n2 'n' ∧ slash = '/' then
          let bDigits := rest3.takeWhile pyIsDigit
          let rest4 := rest3.dropWhile pyIsDigit
          if bDigits.isEmpty then none
          else
            match rest4 with
            | ')' :: '+' :: fnRest =>
              some (group1, bDigits, fnRest.takeWhile (fun c => ¬ (c = '\n')))
            | _ => none
        else none
      | _ => none
    else none
  | _ => none

/-- `re.search`: leftmost successful match attempt. -/
def searchMaster : List Char → Option (List Char × List Char × List Char)
  | [] => none
  | c :: rest =>
    match matchMasterAt (c :: rest) with
    | some g => some g
    | none => searchMaster rest

/-- Python `float()` on a capture of `[\d\.]+`: digits with at most one
dot parse exactly; a lone `.` or multiple dots raise ValueError in
Python, modelled as `none`. -/
def pyFloatQ (cap : List Char) : Option Rat :=
  let intPart := cap.takeWhile pyIsDigit
  let rest := cap.dropWhile pyIsDigit
  match rest with
  | [] => if intPart.isEmpty then none else some ((digitsToNat ⟨intPart⟩ : Int) : Rat)
  | '.' :: frac =>
    if frac.all pyIsDigit then
      if intPart.isEmpty ∧ frac.isEmpty then none
      else some (((digitsToNat ⟨intPart⟩ : Int) : Rat)
                 + ((digitsToNat ⟨frac⟩ : Int) : Rat) / ((10 : Rat) ^ frac.length))
    else none
  | _ => none

/-- One anchored attempt of `n\^([\d\.]+)` (no IGNORECASE on this inner
search in the source). -/
def matchDExpAt : List Char → Option (List Char)
  | 'n' :: '^' :: rest =>
    let cap := rest.takeWhile (fun c => pyIsDigit c || c = '.')
    if cap.isEmpty then none else some cap
  | _ => none

def searchDExp : List Char → Option (List Char)
  | [] => none
  | c :: rest =>
    match matchDExpAt (c :: rest) with
    | some cap => some cap
    | none => searchDExp rest

/-- `_parse_master_params`.  Returns `none` both when the regex does not
match / `b ≤ 1`, and on the capture shapes where Python's `float()` would
raise ValueError (bare `*` multiplier, multi-dot exponent) — no claim
reaches those shapes. -/
def parseMasterParams (recurrence : String) : Option (Rat × Rat × Rat) :=
  let s := (stripSpaces recurrence).toList
  match searchMaster s with
  | none => none
  | some (group1, bDigits, fn) =>
    let a? : Option Rat :=
      if group1.isEmpty then some 1
      else
        let digitsOnly := group1.filter (fun c => ¬ (c = '*'))
        if digitsOnly.isEmpty then none
        else some ((digitsToNat ⟨digitsOnly⟩ : Int) : Rat)
    match a? with
    | none => none
    | some a =>
      let b : Rat := ((digitsToNat ⟨bDigits⟩ : Int) : Rat)
      if b ≤ 1 then none
      else
        let d? : Option Rat :=
          if listInfix ['n', '^'] fn then
            match searchDExp fn with
            | some cap => pyFloatQ cap
            | none => some 1
          else if fn.contains 'n' then some 1
          else some 0
        match d? with
        | none => none
        | some d => some (a, b, d)

/-- The fixed record returned by the QuickSort special case. -/
def quicksortSolution : RecurrenceSolution :=
  { theta := "Theta(n log n)"
    upper := "O(n²)"
    lower := "Omega(n log n)"
    justification := "QuickSort: mejor/promedio Θ(n log n), peor O(n²) cuando la partición es desbalanceada."
    cases := [("best", "Ω(n log n)"), ("average", "Θ(n log n)"), ("worst", "O(n²)")] }

/-- `log_b(a)` is an integer `k` (then rendered exactly). -/
def intLog? (b a : Rat) : Option Nat :=
  (List.range 65).find? (fun k => b ^ k = a)

/-- Rendering of a Python float: `2.0` style for integral values, exact
fraction otherwise (the source prints the decimal float there; those
branches are not reached by any claim in this file). -/
def qFloatStr (q : Rat) : String :=
  if q.den = 1 then toString q.num ++ ".0" else toString q.num ++ "/" ++ toString q.den

/-- The three standard Master-theorem cases of
`solve_with_master_theorem`.  The source discriminates with float
`math.log(a, b)` and a `1e-9` epsilon; here the comparison `d ⋛ log_b a`
is computed exactly over `ℚ` as `b^d.num ⋛ a^d.den` (valid since `b > 1`
and `d ≥ 0`), which is what the epsilon is meant to approximate.  For the
Case-3 regularity check `a < b**d` note that, exactly, it coincides with
the Case-3 condition itself.  `a ≤ 0` would make Python's `math.log`
raise; no claim reaches any of this. -/
def masterGenericCases (a b d : Rat) : Option RecurrenceSolution :=
  if a ≤ 0 then none
  else
    let lhs : Rat := b ^ d.num
    let rhs : Rat := a ^ d.den
    if lhs < rhs then
      let nCrit :=
        match intLog? b a with
        | some k => "n^" ++ toString k
        | none => "n^(log_b a)"  -- the source renders the rounded float here
      some { theta := "Theta(" ++ nCrit ++ ")"
             upper := "O(" ++ nCrit ++ ")"
             lower := "Omega(" ++ nCrit ++ ")"
             justification := "Caso 1: f(n) es polinómicamente menor."
             cases := [("best", "Ω(" ++ nCrit ++ ")"), ("average", "Θ(" ++ nCrit ++ ")"),
                       ("worst", "O(" ++ nCrit ++ ")")] }
    else if lhs = rhs then
      let nCrit := if d.den = 1 then "n^" ++ toString d.num else "n^" ++ qFloatStr d
      some { theta := "Theta(" ++ nCrit ++ " log n)"
             upper := "O(" ++ nCrit ++ " log n)"
             lower := "Omega(" ++ nCrit ++ " log n)"
             justification := "Caso 2: f(n) y n^log_b(a) crecen igual."
             cases := [("best", "Ω(" ++ nCrit ++ " log n)"),
                       ("average", "Θ(" ++ nCrit ++ " log n)"),
                       ("worst", "O(" ++ nCrit ++ " log n)")] }
    else
      if rhs < lhs then
        some { theta := "Theta(n^" ++ qFloatStr d ++ ")"
               upper := "O(n^" ++ qFloatStr d ++ ")"
               lower := "Omega(n^" ++ qFloatStr d ++ ")"
               justification := "Caso 3: f(n) domina y es regular."
               cases := [("best", "Ω(n^" ++ qFloatStr d ++ ")"),
                         ("average", "Θ(n^" ++ qFloatStr d ++ ")"),
                         ("worst", "O(n^" ++ qFloatStr d ++ ")")] }
      else none

/-- `solve_with_master_theorem`. -/
def solveWithMasterTheorem (relation : RecurrenceRelation) : Option RecurrenceSolution :=
  match parseMasterParams relation.recurrence with
  | none => none
  | some (a, b, d) =>
    if (a = 2 ∧ b = 2 ∧ d = 1) ∨ strContains (strLower relation.identifier) "quicksort" = true
    then some quicksortSolution
    else masterGenericCases a b d

/-- Python `str.endswith`. -/
def strEndsWith (s post : String) : Bool := post.toList.isSuffixOf s.toList

/-- The fixed record returned by the substitution handler. -/
def linearSolution : RecurrenceSolution :=
  { theta := "Theta(n)"
    upper := "O(n)"
    lower := "Omega(n)"
    justification := "Linear recurrence solved by telescoping."
    cases := [("best", "Ω(n)"), ("average", "Θ(n)"), ("worst", "O(n)")] }

/-- `solve_with_substitution`: fires exactly when the raw recurrence
string ends with `"+ n"`. -/
def solveWithSubstitution (relation : RecurrenceRelation) : Option RecurrenceSolution :=
  if strEndsWith relation.recurrence "+ n" then some linearSolution else none

/-- `RecurrenceSolver.default()`: handlers in registration order. -/
def defaultSolverChain : List (RecurrenceRelation → Option RecurrenceSolution) :=
  [solveWithMasterTheorem, solveWithSubstitution]

/-- `RecurrenceSolver.solve`: first handler returning a result wins. -/
def solverSolve (relation : RecurrenceRelation) : Option RecurrenceSolution :=
  defaultSolverChain.foldl
    (fun acc handler => match acc with | some r => some r | none => handler relation)
    none

/-! ## Concrete inputs used by the theorems -/

/-- The literal recurrences of the claims about the solver chain. -/
def relLinearN : RecurrenceRelation :=
  ⟨"algoritmo", "T(n) = T(n-1) + n", "T(1) = 1", ""⟩

def relLinearConst : RecurrenceRelation :=
  ⟨"algoritmo", "T(n) = T(n-1) + 1", "T(1) = 1", ""⟩

def relQuicksort : RecurrenceRelation := ⟨"T", "T(n)=2T(n/2)+n", "", ""⟩

/-- The Assignment-only program both spellings `x 🡨 1` and `x :=1`
parse to (operator token at the same position in both sources). -/
def c2AssignProgram : Program :=
  { line := 1, column := 1, name := "", classDefinitions := [], declarations := [],
    procedures := [],
    body := [Stmt.assignment 1 9 (Expr.ident 1 7 "x") (Expr.num 1 11 1)] }

/-- Iterative binary search with a `found`-style flag (`encontro`),
written in the dialect the backend parser accepts. -/
def bsSource : String := "begin
inicio 🡨 0
fin 🡨 n - 1
encontro 🡨 0
while (inicio ≤ fin and encontro = 0) do
begin
medio 🡨 (inicio + fin) div 2
if (a[medio] = valor) then
begin
encontro 🡨 1
end
else
begin
if (a[medio] > valor) then
begin
fin 🡨 medio - 1
end
else
begin
inicio 🡨 medio + 1
end
end
end
return encontro
end"

def bsWhileCond : Expr :=
  Expr.binOp 5 21 "and"
    (Expr.binOp 5 15 "<=" (Expr.ident 5 8 "inicio") (Expr.ident 5 17 "fin"))
    (Expr.binOp 5 34 "=" (Expr.ident 5 25 "encontro") (Expr.num 5 36 0))

def bsWhileBody : List Stmt :=
  [Stmt.assignment 7 7 (Expr.ident 7 1 "medio")
     (Expr.binOp 7 24 "div"
       (Expr.binOp 7 17 "+" (Expr.ident 7 10 "inicio") (Expr.ident 7 19 "fin"))
       (Expr.num 7 28 2)),
   Stmt.ifStmt 8 1
     (Expr.binOp 8 14 "="
       (Expr.arrayAccess 8 5 (Expr.ident 8 5 "a") (Expr.ident 8 7 "medio"))
       (Expr.ident 8 16 "valor"))
     [Stmt.assignment 10 10 (Expr.ident 10 1 "encontro") (Expr.num 10 12 1)]
     [Stmt.ifStmt 14 1
        (Expr.binOp 14 14 ">"
          (Expr.arrayAccess 14 5 (Expr.ident 14 5 "a") (Expr.ident 14 7 "medio"))
          (Expr.ident 14 16 "valor"))
        [Stmt.assignment 16 5 (Expr.ident 16 1 "fin")
           (Expr.binOp 16 13 "-" (Expr.ident 16 7 "medio") (Expr.num 16 15 1))]
        [Stmt.assignment 20 8 (Expr.ident 20 1 "inicio")
           (Expr.binOp 20 16 "+" (Expr.ident 20 10 "medio") (Expr.num 20 18 1))]]]

def bsWhileStmt : Stmt := Stmt.whileLoop 5 1 bsWhileCond bsWhileBody

/-- The AST of `bsSource` (transcribed from the embedded parser;
positions follow the lexer's line/column bookkeeping). -/
def bsProgram : Program :=
  { line := 1, column := 1, name := "", classDefinitions := [], declarations := [],
    procedures := [],
    body :=
      [Stmt.assignment 2 8 (Expr.ident 2 1 "inicio") (Expr.num 2 10 0),
       Stmt.assignment 3 5 (Expr.ident 3 1 "fin")
         (Expr.binOp 3 9 "-" (Expr.ident 3 7 "n") (Expr.num 3 11 1)),
       Stmt.assignment 4 10 (Expr.ident 4 1 "encontro") (Expr.num 4 12 0),
       bsWhileStmt,
       Stmt.returnStmt 24 1 (some (Expr.ident 24 8 "encontro"))] }

/-- Fibonacci-style doubly recursive procedure with an early base-case
return, in the dialect the backend parser accepts. -/
def fibSource : String := "fib(n)
begin
if n <= 1 then
begin
return n
end
call fib(n - 1)
call fib(n - 2)
end
begin
call fib(n)
end"

def fibProc : Procedure :=
  { line := 1, column := 1, name := "fib",
    parameters := [⟨1, 5, "n", none⟩],
    body :=
      [Stmt.ifStmt 3 1 (Expr.binOp 3 6 "<=" (Expr.ident 3 4 "n") (Expr.num 3 9 1))
         [Stmt.returnStmt 5 1 (some (Expr.ident 5 8 "n"))] [],
       Stmt.callStmt 7 1 "fib"
         [Expr.binOp 7 12 "-" (Expr.ident 7 10 "n") (Expr.num 7 14 1)],
       Stmt.callStmt 8 1 "fib"
         [Expr.binOp 8 12 "-" (Expr.ident 8 10 "n") (Expr.num 8 14 2)]] }

/-- The AST of `fibSource` (transcribed from the embedded parser). -/
def fibProgram : Program :=
  { line := 1, column := 1, name := "", classDefinitions := [], declarations := [],
    procedures := [fibProc],
    body := [Stmt.callStmt 11 1 "fib" [Expr.ident 11 10 "n"]] }

/-! Structural Boolean equality on the AST.  Evaluating a parser outcome
against an expected tree through these functions is a single lock-step
traversal; the soundness lemmas below recover propositional equality. -/

mutual

def beqExpr : Expr → Expr → Bool
  | .callExpr l1 c1 f1 as1, b =>
    (match b with
     | .callExpr l2 c2 f2 as2 =>
       l1 == l2 && c1 == c2 && beqExpr f1 f2 && beqExprList as1 as2
     | _ => false)
  | .ident l1 c1 n1, b =>
    (match b with
     | .ident l2 c2 n2 => l1 == l2 && c1 == c2 && n1 == n2
     | _ => false)
  | .num l1 c1 v1, b =>
    (match b with
     | .num l2 c2 v2 => l1 == l2 && c1 == c2 && v1 == v2
     | _ => false)
  | .boolLit l1 c1 v1, b =>
    (match b with
     | .boolLit l2 c2 v2 => l1 == l2 && c1 == c2 && v1 == v2
     | _ => false)
  | .nullLit l1 c1, b =>
    (match b with
     | .nullLit l2 c2 => l1 == l2 && c1 == c2
     | _ => false)
  | .strLit l1 c1 v1, b =>
    (match b with
     | .strLit l2 c2 v2 => l1 == l2 && c1 == c2 && v1 == v2
     | _ => false)
  | .binOp l1 c1 o1 a1 b1, b =>
    (match b with
     | .binOp l2 c2 o2 a2 b2 =>
       l1 == l2 && c1 == c2 && o1 == o2 && beqExpr a1 a2 && beqExpr b1 b2
     | _ => false)
  | .unOp l1 c1 o1 e1, b =>
    (match b with
     | .unOp l2 c2 o2 e2 => l1 == l2 && c1 == c2 && o1 == o2 && beqExpr e1 e2
     | _ => false)
  | .arrayAccess l1 c1 a1 i1, b =>
    (match b with
     | .arrayAccess l2 c2 a2 i2 =>
       l1 == l2 && c1 == c2 && beqExpr a1 a2 && beqExpr i1 i2
     | _ => false)
  | .fieldAccess l1 c1 b1 f1, b =>
    (match b with
     | .fieldAccess l2 c2 b2 f2 =>
       l1 == l2 && c1 == c2 && beqExpr b1 b2 && f1 == f2
     | _ => false)
  | .lengthCall l1 c1 n1, b =>
    (match b with
     | .lengthCall l2 c2 n2 => l1 == l2 && c1 == c2 && n1 == n2
     | _ => false)
  | .rangeExpr l1 c1 s1 e1, b =>
    (match b with
     | .rangeExpr l2 c2 s2 e2 =>
       l1 == l2 && c1 == c2 && beqExpr s1 s2 && beqExpr e1 e2
     | _ => false)

def beqExprList : List Expr → List Expr → Bool
  | [], [] => true
  | a :: as, b :: bs => beqExpr a b && beqExprList as bs
  | _, _ => false

end

def beqOptExpr : Option Expr → Option Expr → Bool
  | none, none => true
  | some a, some b => beqExpr a b
  | _, _ => false

mutual

def beqStmt : Stmt → Stmt → Bool
  | .assignment l1 c1 t1 v1, s =>
    (match s with
     | .assignment l2 c2 t2 v2 =>
       l1 == l2 && c1 == c2 && beqExpr t1 t2 && beqExpr v1 v2
     | _ => false)
  | .printStmt l1 c1 e1, s =>
    (match s with
     | .printStmt l2 c2 e2 => l1 == l2 && c1 == c2 && beqExpr e1 e2
     | _ => false)
  | .forLoop l1 c1 i1 s1 e1 b1, s =>
    (match s with
     | .forLoop l2 c2 i2 s2 e2 b2 =>
       l1 == l2 && c1 == c2 && i1 == i2 && beqExpr s1 s2 && beqExpr e1 e2 &&
         beqStmtList b1 b2
     | _ => false)
  | .whileLoop l1 c1 e1 b1, s =>
    (match s with
     | .whileLoop l2 c2 e2 b2 =>
       l1 == l2 && c1 == c2 && beqExpr e1 e2 && beqStmtList b1 b2
     | _ => false)
  | .repeatUntil l1 c1 b1 e1, s =>
    (match s with
     | .repeatUntil l2 c2 b2 e2 =>
       l1 == l2 && c1 == c2 && beqStmtList b1 b2 && beqOptExpr e1 e2
     | _ => false)
  | .ifStmt l1 c1 e1 t1 f1, s =>
    (match s with
     | .ifStmt l2 c2 e2 t2 f2 =>
       l1 == l2 && c1 == c2 && beqExpr e1 e2 && beqStmtList t1 t2 && beqStmtList f1 f2
     | _ => false)
  | .callStmt l1 c1 n1 as1, s =>
    (match s with
     | .callStmt l2 c2 n2 as2 =>
       l1 == l2 && c1 == c2 && n1 == n2 && beqExprList as1 as2
     | _ => false)
  | .returnStmt l1 c1 v1, s =>
    (match s with
     | .returnStmt l2 c2 v2 => l1 == l2 && c1 == c2 && beqOptExpr v1 v2
     | _ => false)

def beqStmtList : List Stmt → List Stmt → Bool
  | [], [] => true
  | a :: as, b :: bs => beqStmt a b && beqStmtList as bs
  | _, _ => false

end

def beqDecl : Declaration → Declaration → Bool
  | .variableDecl l1 c1 n1 d1, d =>
    (match d with
     | .variableDecl l2 c2 n2 d2 => l1 == l2 && c1 == c2 && n1 == n2 && d1 == d2
     | _ => false)
  | .arrayDecl l1 c1 n1 s1, d =>
    (match d with
     | .arrayDecl l2 c2 n2 s2 => l1 == l2 && c1 == c2 && n1 == n2 && beqOptExpr s1 s2
     | _ => false)
  | .objectDecl l1 c1 n1 k1, d =>
    (match d with
     | .objectDecl l2 c2 n2 k2 => l1 == l2 && c1 == c2 && n1 == n2 && k1 == k2
     | _ => false)

def beqDeclList : List Declaration → List Declaration → Bool
  | [], [] => true
  | a :: as, b :: bs => beqDecl a b && beqDeclList as bs
  | _, _ => false

def beqProc (p q : Procedure) : Bool :=
  p.line == q.line && p.column == q.column && p.name == q.name &&
    p.parameters == q.parameters && beqStmtList p.body q.body

def beqProcList : List Procedure → List Procedure → Bool
  | [], [] => true
  | a :: as, b :: bs => beqProc a b && beqProcList as bs
  | _, _ => false

def beqProgram (p q : Program) : Bool :=
  p.line == q.line && p.column == q.column && p.name == q.name &&
    p.classDefinitions == q.classDefinitions && beqDeclList p.declarations q.declarations &&
    beqProcList p.procedures q.procedures && beqStmtList p.body q.body

/-- Boolean test that a parser outcome is a success carrying exactly the
given program tree. -/
def beqParseOk (r : Option (Except PErr Program)) (p : Program) : Bool :=
  match r with
  | some (Except.ok q) => beqProgram q p
  | _ => false

/-! ## General lemmas about the dominance order -/

/-! Soundness of the Boolean AST equalities. -/

mutual

theorem beqExpr_sound : ∀ a b : Expr, beqExpr a b = true → a = b
  | .callExpr l1 c1 f1 as1, b, h => by
    cases b <;> simp [beqExpr, Bool.and_eq_true, and_assoc] at h
    obtain ⟨rfl, rfl, hf, ha⟩ := h
    rw [beqExpr_sound f1 _ hf, beqExprList_sound as1 _ ha]
  | .ident l1 c1 n1, b, h => by
    cases b <;> simp [beqExpr, Bool.and_eq_true, and_assoc] at h
    obtain ⟨rfl, rfl, rfl⟩ := h
    rfl
  | .num l1 c1 v1, b, h => by
    cases b <;> simp [beqExpr, Bool.and_eq_true, and_assoc] at h
    obtain ⟨rfl, rfl, rfl⟩ := h
    rfl
  | .boolLit l1 c1 v1, b, h => by
    cases b <;> simp [beqExpr, Bool.and_eq_true, and_assoc] at h
    obtain ⟨rfl, rfl, rfl⟩ := h
    rfl
  | .nullLit l1 c1, b, h => by
    cases b <;> simp [beqExpr, Bool.and_eq_true, and_assoc] at h
    obtain ⟨rfl, rfl⟩ := h
    rfl
  | .strLit l1 c1 v1, b, h => by
    cases b <;> simp [beqExpr, Bool.and_eq_true, and_assoc] at h
    obtain ⟨rfl, rfl, rfl⟩ := h
    rfl
  | .binOp l1 c1 o1 a1 b1, b, h => by
    cases b <;> simp [beqExpr, Bool.and_eq_true, and_assoc] at h
    obtain ⟨rfl, rfl, rfl, h1, h2⟩ := h
    rw [beqExpr_sound a1 _ h1, beqExpr_sound b1 _ h2]
  | .unOp l1 c1 o1 e1, b, h => by
    cases b <;> simp [beqExpr, Bool.and_eq_true, and_assoc] at h
    obtain ⟨rfl, rfl, rfl, h1⟩ := h
    rw [beqExpr_sound e1 _ h1]
  | .arrayAccess l1 c1 a1 i1, b, h => by
    cases b <;> simp [beqExpr, Bool.and_eq_true, and_assoc] at h
    obtain ⟨rfl, rfl, h1, h2⟩ := h
    rw [beqExpr_sound a1 _ h1, beqExpr_sound i1 _ h2]
  | .fieldAccess l1 c1 b1 f1, b, h => by
    cases b <;> simp [beqExpr, Bool.and_eq_true, and_assoc] at h
    obtain ⟨rfl, rfl, h1, rfl⟩ := h
    rw [beqExpr_sound b1 _ h1]
  | .lengthCall l1 c1 n1, b, h => by
    cases b <;> simp [beqExpr, Bool.and_eq_true, and_assoc] at h
    obtain ⟨rfl, rfl, rfl⟩ := h
    rfl
  | .rangeExpr l1 c1 s1 e1, b, h => by
    cases b <;> simp [beqExpr, Bool.and_eq_true, and_assoc] at h
    obtain ⟨rfl, rfl, h1, h2⟩ := h
    rw [beqExpr_sound s1 _ h1, beqExpr_sound e1 _ h2]

theorem beqExprList_sound : ∀ a b : List Expr, beqExprList a b = true → a = b
  | [], [], _ => rfl
  | [], _ :: _, h => by simp [beqExprList] at h
  | _ :: _, [], h => by simp [beqExprList] at h
  | a :: as, b :: bs, h => by
    simp only [beqExprList, Bool.and_eq_true, and_assoc] at h
    rw [beqExpr_sound a b h.1, beqExprList_sound as bs h.2]

end

theorem beqOptExpr_sound : ∀ a b : Option Expr, beqOptExpr a b = true → a = b
  | none, none, _ => rfl
  | none, some _, h => by simp [beqOptExpr] at h
  | some _, none, h => by simp [beqOptExpr] at h
  | some a, some b, h => by rw [beqExpr_sound a b h]

mutual

theorem beqStmt_sound : ∀ a b : Stmt, beqStmt a b = true → a = b
  | .assignment l1 c1 t1 v1, s, h => by
    cases s <;> simp [beqStmt, Bool.and_eq_true, and_assoc] at h
    obtain ⟨rfl, rfl, h1, h2⟩ := h
    rw [beqExpr_sound t1 _ h1, beqExpr_sound v1 _ h2]
  | .printStmt l1 c1 e1, s, h => by
    cases s <;> simp [beqStmt, Bool.and_eq_true, and_assoc] at h
    obtain ⟨rfl, rfl, h1⟩ := h
    rw [beqExpr_sound e1 _ h1]
  | .forLoop l1 c1 i1 s1 e1 b1, s, h => by
    cases s <;> simp [beqStmt, Bool.and_eq_true, and_assoc] at h
    obtain ⟨rfl, rfl, rfl, h1, h2, h3⟩ := h
    rw [beqExpr_sound s1 _ h1, beqExpr_sound e1 _ h2, beqStmtList_sound b1 _ h3]
  | .whileLoop l1 c1 e1 b1, s, h => by
    cases s <;> simp [beqStmt, Bool.and_eq_true, and_assoc] at h
    obtain ⟨rfl, rfl, h1, h2⟩ := h
    rw [beqExpr_sound e1 _ h1, beqStmtList_sound b1 _ h2]
  | .repeatUntil l1 c1 b1 e1, s, h => by
    cases s <;> simp [beqStmt, Bool.and_eq_true, and_assoc] at h
    obtain ⟨rfl, rfl, h1, h2⟩ := h
    rw [beqStmtList_sound b1 _ h1, beqOptExpr_sound e1 _ h2]
  | .ifStmt l1 c1 e1 t1 f1, s, h => by
    cases s <;> simp [beqStmt, Bool.and_eq_true, and_assoc] at h
    obtain ⟨rfl, rfl, h1, h2, h3⟩ := h
    rw [beqExpr_sound e1 _ h1, beqStmtList_sound t1 _ h2, beqStmtList_sound f1 _ h3]
  | .callStmt l1 c1 n1 as1, s, h => by
    cases s <;> simp [beqStmt, Bool.and_eq_true, and_assoc] at h
    obtain ⟨rfl, rfl, rfl, h1⟩ := h
    rw [beqExprList_sound as1 _ h1]
  | .returnStmt l1 c1 v1, s, h => by
    cases s <;> simp [beqStmt, Bool.and_eq_true, and_assoc] at h
    obtain ⟨rfl, rfl, h1⟩ := h
    rw [beqOptExpr_sound v1 _ h1]

theorem beqStmtList_sound : ∀ a b : List Stmt, beqStmtList a b = true → a = b
  | [], [], _ => rfl
  | [], _ :: _, h => by simp [beqStmtList] at h
  | _ :: _, [], h => by simp [beqStmtList] at h
  | a :: as, b :: bs, h => by
    simp only [beqStmtList, Bool.and_eq_true, and_assoc] at h
    rw [beqStmt_sound a b h.1, beqStmtList_sound as bs h.2]

end

theorem beqDecl_sound : ∀ a b : Declaration, beqDecl a b = true → a = b
  | .variableDecl l1 c1 n1 d1, d, h => by
    cases d <;> simp [beqDecl, Bool.and_eq_true, and_assoc] at h
    obtain ⟨rfl, rfl, rfl, rfl⟩ := h
    rfl
  | .arrayDecl l1 c1 n1 s1, d, h => by
    cases d <;> simp [beqDecl, Bool.and_eq_true, and_assoc] at h
    obtain ⟨rfl, rfl, rfl, h1⟩ := h
    rw [beqOptExpr_sound s1 _ h1]
  | .objectDecl l1 c1 n1 k1, d, h => by
    cases d <;> simp [beqDecl, Bool.and_eq_true, and_assoc] at h
    obtain ⟨rfl, rfl, rfl, rfl⟩ := h
    rfl

theorem beqDeclList_sound : ∀ a b : List Declaration, beqDeclList a b = true → a = b
  | [], [], _ => rfl
  | [], _ :: _, h => by simp [beqDeclList] at h
  | _ :: _, [], h => by simp [beqDeclList] at h
  | a :: as, b :: bs, h => by
    simp only [beqDeclList, Bool.and_eq_true, and_assoc] at h
    rw [beqDecl_sound a b h.1, beqDeclList_sound as bs h.2]

theorem beqProc_sound (a b : Procedure) (h : beqProc a b = true) : a = b := by
  cases a
  cases b
  simp [beqProc, Bool.and_eq_true, and_assoc] at h
  obtain ⟨rfl, rfl, rfl, rfl, h1⟩ := h
  rw [beqStmtList_sound _ _ h1]

theorem beqProcList_sound : ∀ a b : List Procedure, beqProcList a b = true → a = b
  | [], [], _ => rfl
  | [], _ :: _, h => by simp [beqProcList] at h
  | _ :: _, [], h => by simp [beqProcList] at h
  | a :: as, b :: bs, h => by
    simp only [beqProcList, Bool.and_eq_true, and_assoc] at h
    rw [beqProc_sound a b h.1, beqProcList_sound as bs h.2]

theorem beqProgram_sound (a b : Program) (h : beqProgram a b = true) : a = b := by
  cases a
  cases b
  simp [beqProgram, Bool.and_eq_true, and_assoc] at h
  obtain ⟨rfl, rfl, rfl, rfl, h1, h2, h3⟩ := h
  rw [beqDeclList_sound _ _ h1, beqProcList_sound _ _ h2, beqStmtList_sound _ _ h3]

theorem beqParseOk_sound {r : Option (Except PErr Program)} {p : Program}
    (h : beqParseOk r p = true) : r = some (Except.ok p) := by
  match r with
  | some (Except.ok q) => rw [beqProgram_sound q p h]
  | some (Except.error e) => simp [beqParseOk] at h
  | none => simp [beqParseOk] at h


theorem dominates_refl (a : ComplexityMeasure) : a.dominates a = true := by
  unfold ComplexityMeasure.dominates
  split_ifs <;> simp_all <;> omega

theorem dominates_total (a b : ComplexityMeasure) :
    a.dominates b = true ∨ b.dominates a = true := by
  unfold ComplexityMeasure.dominates
  split_ifs <;> simp_all <;> omega

theorem maxWith_dominates (a b : ComplexityMeasure) :
    ((a.maxWith b).dominates a = true) ∧ ((a.maxWith b).dominates b = true) := by
  unfold ComplexityMeasure.maxWith
  split
  next h => exact ⟨dominates_refl a, h⟩
  next h =>
    rcases dominates_total a b with h2 | h2
    · exact absurd h2 h
    · exact ⟨h2, dominates_refl b⟩

/-! ## Claim theorems -/

set_option maxHeartbeats 4000000

/-- C1, counterexample.  The claim says the handler chain solves
`"T(n) = T(n-1) + n"` to Θ(n²) (Gauss sum) and `T(n-1) + constant` to
Θ(n).  In fact the chain returns the substitution handler's Θ(n)
solution for the former — its `theta` is `"Theta(n)"`, not
`"Theta(n^2)"` — and no solution at all for the latter. -/
theorem c1_counterexample :
    solverSolve relLinearN = some linearSolution ∧
    ¬ (linearSolution.theta = "Theta(n^2)") ∧
    solverSolve relLinearConst = none := by
  refine ⟨rfl, by decide, rfl⟩

/-- C1, amended: for the literal input `"T(n) = T(n-1) + n"` the master
handler declines (the regex requires a `T(n/b)` sub-term) and the
substitution handler — which fires on any recurrence string ending in
`"+ n"` — returns Θ(n) (upper O(n), lower Ω(n)); a recurrence of the
shape `T(n-1) + constant`, e.g. `"T(n) = T(n-1) + 1"`, matches no handler
and the chain returns no solution (the inconclusive outcome). -/
theorem c1_amended_theorem :
    solveWithMasterTheorem relLinearN = none ∧
    solveWithSubstitution relLinearN = some linearSolution ∧
    solverSolve relLinearN = some linearSolution ∧
    linearSolution.theta = "Theta(n)" ∧
    solveWithMasterTheorem relLinearConst = none ∧
    solveWithSubstitution relLinearConst = none ∧
    solverSolve relLinearConst = none := by
  refine ⟨rfl, rfl, rfl, rfl, rfl, rfl, rfl⟩

/-- C2, counterexample.  The lexer does not canonicalize `≤` to `"<="`
(the token keeps the lexeme `"≤"`; the parser normalizes it only inside
comparisons), and the arrow variants `←` and `<-` are not turned into
`🡨` at lex time — an assignment written with either of them is a
`ParserError`, not the same Assignment node. -/
theorem c2_counterexample :
    tokenize "x ≤ 1" = some (Except.ok
      [⟨TokenKind.identifier, "x", 1, 1⟩, ⟨TokenKind.symbol, "≤", 1, 3⟩,
       ⟨TokenKind.number, "1", 1, 5⟩, ⟨TokenKind.eof, "", 1, 6⟩]) ∧
    ¬ ("≤" = "<=") ∧
    isParserError (parseProgram "begin x ← 1 end") = true ∧
    isParserError (parseProgram "begin x <- 1 end") = true := by
  refine ⟨rfl, by decide, rfl, rfl⟩

/-- C2, amended: at lex time only `↨` is normalized to `🡨` and `≠` to
`"<>"`; `≤` and `≥` are kept as their own symbols (normalized later by
the parser inside comparisons); the assignment statement accepts exactly
the lexemes `🡨` and `:=`, and the two spellings produce the same
Assignment node; `←` and `<-` are rejected with `ParserError`. -/
theorem c2_amended_theorem :
    tokenize "↨" = some (Except.ok
      [⟨TokenKind.symbol, "🡨", 1, 1⟩, ⟨TokenKind.eof, "", 1, 2⟩]) ∧
    tokenize "≠" = some (Except.ok
      [⟨TokenKind.symbol, "<>", 1, 1⟩, ⟨TokenKind.eof, "", 1, 2⟩]) ∧
    tokenize "≥" = some (Except.ok
      [⟨TokenKind.symbol, "≥", 1, 1⟩, ⟨TokenKind.eof, "", 1, 2⟩]) ∧
    parseProgram "begin x 🡨 1 end" = some (Except.ok c2AssignProgram) ∧
    parseProgram "begin x :=1 end" = some (Except.ok c2AssignProgram) ∧
    parseProgram "begin x 🡨 1 end" = parseProgram "begin x :=1 end" ∧
    isParserError (parseProgram "begin x ← 1 end") = true ∧
    isParserError (parseProgram "begin x <- 1 end") = true := by
  have htok1 : tokenize "begin x 🡨 1 end" = some (Except.ok
      [⟨TokenKind.keyword, "begin", 1, 1⟩, ⟨TokenKind.identifier, "x", 1, 7⟩,
       ⟨TokenKind.symbol, "🡨", 1, 9⟩, ⟨TokenKind.number, "1", 1, 11⟩,
       ⟨TokenKind.keyword, "end", 1, 13⟩, ⟨TokenKind.eof, "", 1, 16⟩]) := rfl
  have htok2 : tokenize "begin x :=1 end" = some (Except.ok
      [⟨TokenKind.keyword, "begin", 1, 1⟩, ⟨TokenKind.identifier, "x", 1, 7⟩,
       ⟨TokenKind.symbol, ":=", 1, 9⟩, ⟨TokenKind.number, "1", 1, 11⟩,
       ⟨TokenKind.keyword, "end", 1, 13⟩, ⟨TokenKind.eof, "", 1, 16⟩]) := rfl
  have h1 : parseProgram "begin x 🡨 1 end" = some (Except.ok c2AssignProgram) := by
    simp only [parseProgram, htok1]
    exact beqParseOk_sound rfl
  have h2 : parseProgram "begin x :=1 end" = some (Except.ok c2AssignProgram) := by
    simp only [parseProgram, htok2]
    exact beqParseOk_sound rfl
  exact ⟨rfl, rfl, rfl, h1, h2, h1.trans h2.symm, rfl, rfl⟩

/-- C4: whenever `_parse_master_params` yields `(a, b, d) = (2, 2, 1)`,
the master-theorem handler returns the QuickSort special case — best and
average Θ(n log n), worst/upper O(n²) — instead of the generic Case-2
answer. -/
theorem c4_theorem (relation : RecurrenceRelation)
    (h : parseMasterParams relation.recurrence = some (2, 2, 1)) :
    solveWithMasterTheorem relation = some quicksortSolution ∧
    quicksortSolution.theta = "Theta(n log n)" ∧
    quicksortSolution.upper = "O(n²)" ∧
    quicksortSolution.cases =
      [("best", "Ω(n log n)"), ("average", "Θ(n log n)"), ("worst", "O(n²)")] := by
  refine ⟨?_, rfl, rfl, rfl⟩
  simp only [solveWithMasterTheorem, h]
  simp

/-- C4, witness at the literal recurrence `"T(n)=2T(n/2)+n"`. -/
theorem c4_theorem_witness :
    parseMasterParams relQuicksort.recurrence = some (2, 2, 1) ∧
    solveWithMasterTheorem relQuicksort = some quicksortSolution := by
  have h : parseMasterParams relQuicksort.recurrence = some (2, 2, 1) := by decide
  exact ⟨h, (c4_theorem relQuicksort h).1⟩

/-- C6: the claim (and the repository's own tests, which assert a
`NoOp` node) says statements with unrecognized leading keywords such as
`let` or `declare` are consumed to end of line and materialized as
`NoOp`.  The parser under test has no such branch (and `ast_nodes.py`
no `NoOp` class): both inputs raise `ParserError`. -/
theorem c6_code_bug :
    isParserError (parseProgram "begin declare l[10] end") = true ∧
    isParserError (parseProgram "begin let x 🡨 1 end") = true := by
  refine ⟨rfl, rfl⟩

/-- C8: for every `IfStatement` and every context, the worst-case measure
of the whole statement dominance-dominates the worst-case measure of each
branch analysed alone. -/
theorem c8_theorem (line column : Nat) (cond : Expr) (thenB elseB : List Stmt)
    (ctx : AnalysisContext) :
    ((analyzeStatement (Stmt.ifStmt line column cond thenB elseB) ctx).worst.dominates
       (analyzeBlock thenB ctx).worst = true) ∧
    ((analyzeStatement (Stmt.ifStmt line column cond thenB elseB) ctx).worst.dominates
       (analyzeBlock elseB ctx).worst = true) := by
  simp only [analyzeStatement, analyzeBlock, CaseComplexity.combineBranch]
  exact ⟨(maxWith_dominates _ _).1, (maxWith_dominates _ _).2⟩

/-- C9: `add_degree` and `add_log` rebuild the measure with
`exponential_base = 0`, so scaling a `CaseComplexity` by a positive loop
degree silently discards any exponential factor. -/
theorem c9_theorem (m : ComplexityMeasure) (k : Int) (hk : 0 ≤ k)
    (cc : CaseComplexity) (d : Int) (hd : 0 < d) :
    (m.addDegree k).exponential_base = 0 ∧
    (m.addLog k).exponential_base = 0 ∧
    (cc.scaleByDegree d).best.exponential_base = 0 ∧
    (cc.scaleByDegree d).worst.exponential_base = 0 ∧
    (cc.scaleByDegree d).average.exponential_base = 0 := by
  have hne : ¬ (d = 0) := by omega
  refine ⟨rfl, rfl, ?_, ?_, ?_⟩ <;>
    · unfold CaseComplexity.scaleByDegree
      rw [if_neg hne]
      rfl

/-- C9, witness at the exponential measure `2^n · n` scaled by degree 1. -/
theorem c9_theorem_witness :
    ((⟨1, 0, 2⟩ : ComplexityMeasure).addDegree 1).exponential_base = 0 ∧
    ((⟨⟨1, 0, 2⟩, ⟨1, 0, 2⟩, ⟨1, 0, 2⟩⟩ : CaseComplexity).scaleByDegree 1).worst.exponential_base = 0 := by
  have h := c9_theorem ⟨1, 0, 2⟩ 1 (by decide)
    ⟨⟨1, 0, 2⟩, ⟨1, 0, 2⟩, ⟨1, 0, 2⟩⟩ 1 (by decide)
  exact ⟨h.1, h.2.2.2.1⟩

/-! ### The structural fold never produces an exponential factor -/

theorem maxWith_exp {a b : ComplexityMeasure} (ha : a.exponential_base = 0)
    (hb : b.exponential_base = 0) : (a.maxWith b).exponential_base = 0 := by
  unfold ComplexityMeasure.maxWith
  split <;> assumption

theorem minWith_exp {a b : ComplexityMeasure} (ha : a.exponential_base = 0)
    (hb : b.exponential_base = 0) : (a.minWith b).exponential_base = 0 := by
  unfold ComplexityMeasure.minWith
  split <;> assumption

mutual

theorem analyzeStatement_exp (s : Stmt) (ctx : AnalysisContext) :
    (analyzeStatement s ctx).best.exponential_base = 0 ∧
    (analyzeStatement s ctx).worst.exponential_base = 0 ∧
    (analyzeStatement s ctx).average.exponential_base = 0 := by
  cases s with
  | forLoop line column iterator start stop body =>
    have hb := analyzeBlockAcc_exp CaseComplexity.constant body (ctx.withIterator iterator)
      ⟨rfl, rfl, rfl⟩
    simp only [analyzeStatement]
    unfold CaseComplexity.scaleByDegree
    split
    · exact hb
    · exact ⟨rfl, rfl, rfl⟩
  | whileLoop line column condition body =>
    simp only [analyzeStatement]
    refine ⟨?_, rfl, rfl⟩
    split
    · rfl
    · rfl
  | repeatUntil line column body condition =>
    have hb := analyzeBlockAcc_exp CaseComplexity.constant body ctx ⟨rfl, rfl, rfl⟩
    simp only [analyzeStatement]
    unfold CaseComplexity.scaleByDegree
    split
    · exact hb
    · exact ⟨rfl, rfl, rfl⟩
  | ifStmt line column condition tb eb =>
    have h1 := analyzeBlockAcc_exp CaseComplexity.constant tb ctx ⟨rfl, rfl, rfl⟩
    have h2 := analyzeBlockAcc_exp CaseComplexity.constant eb ctx ⟨rfl, rfl, rfl⟩
    simp only [analyzeStatement]
    exact ⟨minWith_exp h1.1 h2.1, maxWith_exp h1.2.1 h2.2.1, maxWith_exp h1.2.2 h2.2.2⟩
  | assignment line column target value =>
    simp only [analyzeStatement]
    exact ⟨rfl, rfl, rfl⟩
  | printStmt line column e =>
    simp only [analyzeStatement]
    exact ⟨rfl, rfl, rfl⟩
  | callStmt line column name args =>
    simp only [analyzeStatement]
    exact ⟨rfl, rfl, rfl⟩
  | returnStmt line column v =>
    simp only [analyzeStatement]
    exact ⟨rfl, rfl, rfl⟩

theorem analyzeBlockAcc_exp (acc : CaseComplexity) (l : List Stmt) (ctx : AnalysisContext)
    (hacc : acc.best.exponential_base = 0 ∧ acc.worst.exponential_base = 0 ∧
            acc.average.exponential_base = 0) :
    (analyzeBlockAcc acc l ctx).best.exponential_base = 0 ∧
    (analyzeBlockAcc acc l ctx).worst.exponential_base = 0 ∧
    (analyzeBlockAcc acc l ctx).average.exponential_base = 0 := by
  match l with
  | [] =>
    simp only [analyzeBlockAcc]
    exact hacc
  | s :: rest =>
    have hs := analyzeStatement_exp s ctx
    simp only [analyzeBlockAcc]
    exact analyzeBlockAcc_exp (acc.combineSequence (analyzeStatement s ctx)) rest ctx
      ⟨maxWith_exp hacc.1 hs.1, maxWith_exp hacc.2.1 hs.2.1, maxWith_exp hacc.2.2 hs.2.2⟩

end

theorem analyzeBlock_exp (l : List Stmt) (ctx : AnalysisContext) :
    (analyzeBlock l ctx).best.exponential_base = 0 ∧
    (analyzeBlock l ctx).worst.exponential_base = 0 ∧
    (analyzeBlock l ctx).average.exponential_base = 0 :=
  analyzeBlockAcc_exp CaseComplexity.constant l ctx ⟨rfl, rfl, rfl⟩

theorem foldStructural_exp (procs : List Procedure) (ctx : AnalysisContext) :
    ∀ (init : CaseComplexity),
      init.best.exponential_base = 0 ∧ init.worst.exponential_base = 0 ∧
      init.average.exponential_base = 0 →
      ((procs.foldl (fun acc proc => acc.maxWith (analyzeBlock proc.body ctx)) init).best.exponential_base = 0 ∧
       (procs.foldl (fun acc proc => acc.maxWith (analyzeBlock proc.body ctx)) init).worst.exponential_base = 0 ∧
       (procs.foldl (fun acc proc => acc.maxWith (analyzeBlock proc.body ctx)) init).average.exponential_base = 0) := by
  induction procs with
  | nil =>
    intro init h
    simpa using h
  | cons p rest ih =>
    intro init h
    have hp := analyzeBlock_exp p.body ctx
    simp only [List.foldl_cons]
    exact ih _ ⟨maxWith_exp h.1 hp.1, maxWith_exp h.2.1 hp.2.1, maxWith_exp h.2.2 hp.2.2⟩

theorem analysisStructuralCase_exp (p : Program) :
    (analysisStructuralCase p).best.exponential_base = 0 ∧
    (analysisStructuralCase p).worst.exponential_base = 0 ∧
    (analysisStructuralCase p).average.exponential_base = 0 := by
  unfold analysisStructuralCase
  exact foldStructural_exp p.procedures ⟨[]⟩ _ (analyzeBlock_exp p.body ⟨[]⟩)

/-- A measure without exponential factor never dominates `2^n`. -/
theorem maxWith_exp_two {a : ComplexityMeasure} (ha : a.exponential_base = 0) :
    a.maxWith ⟨0, 0, 2⟩ = ⟨0, 0, 2⟩ := by
  have hdom : a.dominates ⟨0, 0, 2⟩ = false := by
    unfold ComplexityMeasure.dominates
    split_ifs <;> simp_all <;> omega
  unfold ComplexityMeasure.maxWith
  simp [hdom]

/-- C5: a procedure with at least two self-referential calls, no loops,
no partition idiom and an early base-case return is classified
`fibonacci`; if it is the procedure `analyze` selects (the first with a
recursive call), the program is reported Ω(2^n) / O(2^n) / Θ(2^n). -/
theorem c5_theorem (p : Program) (proc : Procedure)
    (hfirst : firstRecursiveProc p.procedures = some proc)
    (hcalls : 2 ≤ countRecursiveCalls proc)
    (hloops : hasLoopsIn proc.body = false)
    (hpart : hasPartitionIn proc.body = false)
    (hret : hasEarlyReturnInCondition proc = true) :
    detectRecursivePattern proc = "fibonacci" ∧
    (analyze p).best_case = "Ω(2^n)" ∧
    (analyze p).worst_case = "O(2^n)" ∧
    (analyze p).average_case = "Θ(2^n)" := by
  have hdetect : detectRecursivePattern proc = "fibonacci" := by
    unfold detectRecursivePattern
    rw [if_neg (by omega), if_pos hcalls, hloops, hpart, hret]
    simp
  have hne : p.procedures.isEmpty = false := by
    unfold firstRecursiveProc at hfirst
    cases hp : p.procedures with
    | nil => rw [hp] at hfirst; simp [List.find?] at hfirst
    | cons a l => simp
  have hasRec : analysisHasRecursion p = true := by
    unfold analysisHasRecursion manualRecProc
    cases hlib : patternLibHasRecursion p
    · simp [hne, hfirst]
    · simp
  have hpat : analysisRecursivePattern p = "fibonacci" := by
    unfold analysisRecursivePattern
    rw [hasRec, hne]
    simp [hfirst, hdetect]
  have hstruct := analysisStructuralCase_exp p
  have hfinal : analysisFinalCase p = ⟨⟨0, 0, 2⟩, ⟨0, 0, 2⟩, ⟨0, 0, 2⟩⟩ := by
    unfold analysisFinalCase
    rw [hasRec, hpat]
    simp only [recursionCaseFor, if_pos]
    unfold CaseComplexity.maxWith
    rw [maxWith_exp_two hstruct.1, maxWith_exp_two hstruct.2.1, maxWith_exp_two hstruct.2.2]
  refine ⟨hdetect, ?_, ?_, ?_⟩ <;> simp only [analyze, hfinal] <;> decide

/-- C5, witness: the two-call Fibonacci procedure with an early
base-case return (the AST of `fibSource`). -/
theorem c5_theorem_witness :
    firstRecursiveProc fibProgram.procedures = some fibProc ∧
    detectRecursivePattern fibProc = "fibonacci" ∧
    (analyze fibProgram).best_case = "Ω(2^n)" ∧
    (analyze fibProgram).worst_case = "O(2^n)" ∧
    (analyze fibProgram).average_case = "Θ(2^n)" := by
  have hc2 : countRecursiveCalls fibProc = 2 := by
    simp [countRecursiveCalls, countRecursiveCallsIn, fibProc, strLower]
  have hfirst : firstRecursiveProc fibProgram.procedures = some fibProc := by
    have hp : fibProgram.procedures = [fibProc] := rfl
    rw [hp]
    unfold firstRecursiveProc
    apply List.find?_cons_of_pos
    simp only [hc2]
    decide
  have hcalls : 2 ≤ countRecursiveCalls fibProc := by
    rw [hc2]
  have hloops : hasLoopsIn fibProc.body = false := by
    simp [hasLoopsIn, fibProc]
  have hp1 : strContains (strLower "fib") "particion" = false := by decide
  have hp2 : strContains (strLower "fib") "partition" = false := by decide
  have hpart : hasPartitionIn fibProc.body = false := by
    simp [hasPartitionIn, fibProc, hp1, hp2, containsComparison]
  have hret : hasEarlyReturnInCondition fibProc = true := rfl
  have h := c5_theorem fibProgram fibProc hfirst hcalls hloops hpart hret
  exact ⟨hfirst, h.1, h.2.1, h.2.2.1, h.2.2.2⟩

/-! ### Flag-name monotonicity for the early-exit scan -/

theorem bodyCanSetFlagNames_mono :
    ∀ (l : List Stmt) (names names2 : List String),
      (∀ x, names.contains x = true → names2.contains x = true) →
      bodyCanSetFlagNames l names = true → bodyCanSetFlagNames l names2 = true
  | [], _, _, _, h => by simp [bodyCanSetFlagNames] at h
  | stmt :: rest, names, names2, hsub, h => by
    cases stmt with
    | assignment al ac target value =>
      cases target <;>
        simp only [bodyCanSetFlagNames, Bool.or_eq_true, Bool.false_or] at h ⊢ <;>
        first
          | exact bodyCanSetFlagNames_mono rest names names2 hsub h
          | exact h.elim (fun hh => Or.inl (hsub _ hh))
              (fun hh => Or.inr (bodyCanSetFlagNames_mono rest names names2 hsub hh))
    | ifStmt il ic cond tb eb =>
      simp only [bodyCanSetFlagNames, Bool.or_eq_true] at h ⊢
      rcases h with (h | h) | h
      · exact Or.inl (Or.inl (bodyCanSetFlagNames_mono tb names names2 hsub h))
      · exact Or.inl (Or.inr (bodyCanSetFlagNames_mono eb names names2 hsub h))
      · exact Or.inr (bodyCanSetFlagNames_mono rest names names2 hsub h)
    | printStmt il ic e =>
      simp only [bodyCanSetFlagNames, Bool.or_eq_true, Bool.false_or] at h ⊢
      exact bodyCanSetFlagNames_mono rest names names2 hsub h
    | forLoop il ic it a b body =>
      simp only [bodyCanSetFlagNames, Bool.or_eq_true, Bool.false_or] at h ⊢
      exact bodyCanSetFlagNames_mono rest names names2 hsub h
    | whileLoop il ic c body =>
      simp only [bodyCanSetFlagNames, Bool.or_eq_true, Bool.false_or] at h ⊢
      exact bodyCanSetFlagNames_mono rest names names2 hsub h
    | repeatUntil il ic body c =>
      simp only [bodyCanSetFlagNames, Bool.or_eq_true, Bool.false_or] at h ⊢
      exact bodyCanSetFlagNames_mono rest names names2 hsub h
    | callStmt il ic n args =>
      simp only [bodyCanSetFlagNames, Bool.or_eq_true, Bool.false_or] at h ⊢
      exact bodyCanSetFlagNames_mono rest names names2 hsub h
    | returnStmt il ic v =>
      simp only [bodyCanSetFlagNames, Bool.or_eq_true, Bool.false_or] at h ⊢
      exact bodyCanSetFlagNames_mono rest names names2 hsub h

/-- Setting a flag listed among the condition flag names makes
`_body_can_set_exit_flag` answer true. -/
theorem bodyCanSetExitFlag_of {body : List Stmt} {cond : Expr} {nm : String}
    (hmem : (extractFlagNames cond).contains nm = true)
    (hset : bodyCanSetFlagNames body [nm] = true) :
    bodyCanSetExitFlag body cond = true := by
  unfold bodyCanSetExitFlag
  have hne : (extractFlagNames cond).isEmpty = false := by
    cases h : extractFlagNames cond with
    | nil => rw [h] at hmem; simp at hmem
    | cons a l => simp
  simp only [hne, Bool.false_eq_true, if_false]
  exact bodyCanSetFlagNames_mono body [nm] _
    (fun x hx => by
      have hx2 : x = nm := by simpa using hx
      rw [hx2]
      exact hmem) hset

/-- An early-exit loop gets its best case forced to the constant
measure, whatever the body costs. -/
theorem analyzeWhile_best_of_earlyExit {wl wc : Nat} {cond : Expr} {body : List Stmt}
    {ctx : AnalysisContext} (h : hasEarlyExitCondition cond body = true) :
    (analyzeStatement (Stmt.whileLoop wl wc cond body) ctx).best = ({} : ComplexityMeasure) := by
  simp [analyzeStatement, h]

/-- Shared evaluation: the final `program_case` of the binary-search
program (no recursion; while loop contributes degree 1 to worst/average,
constant best). -/
theorem bsProgram_finalCase :
    analysisFinalCase bsProgram = ⟨⟨0, 0, 0⟩, ⟨1, 0, 0⟩, ⟨1, 0, 0⟩⟩ := by
  have hstruct : analysisStructuralCase bsProgram = ⟨⟨0, 0, 0⟩, ⟨1, 0, 0⟩, ⟨1, 0, 0⟩⟩ := by
    simp [analysisStructuralCase, bsProgram, bsWhileStmt, bsWhileCond, bsWhileBody,
          analyzeBlock, analyzeBlockAcc, analyzeStatement, CaseComplexity.constant,
          CaseComplexity.combineSequence, CaseComplexity.combineBranch,
          CaseComplexity.scaleByDegree, ComplexityMeasure.maxWith,
          ComplexityMeasure.minWith, ComplexityMeasure.dominates,
          ComplexityMeasure.addDegree, extractLoopVariable, relationalOps,
          bodyProgressesVariable, assignmentProgresses, inferConditionDegree,
          expressionDependsOnInput, hasEarlyExitCondition, conditionHasExitFlag,
          hasFlagName, flagKeywords, strLower, strContains, listInfix,
          extractFlagNames, bodyCanSetExitFlag, bodyCanSetFlagNames]
  have hnorec : analysisHasRecursion bsProgram = false := by
    simp [analysisHasRecursion, patternLibHasRecursion, matchProgram,
          loopRecognizerMatches, containsLoopTop, recursionRecognizerMatches,
          stmtsHaveRecursiveCall, exprHasRecursiveCall, bsProgram, bsWhileStmt,
          bsWhileCond, bsWhileBody, strLower, manualRecProc, firstRecursiveProc]
  unfold analysisFinalCase
  rw [hnorec, hstruct]
  simp

/-- C3, counterexample.  For the iterative binary-search program (range
condition conjoined with an `encontro = 0` flag test), the analyzer does
report best Ω(1), but the reported worst case is O(n), not the claimed
O(log n): `_analyze_while` has no logarithmic-progress detection, and the
`and`-condition even hides the loop variable from the degree inference. -/
theorem c3_counterexample :
    (analyze bsProgram).best_case = "Ω(1)" ∧
    (analyze bsProgram).worst_case = "O(n)" ∧
    ¬ ((analyze bsProgram).worst_case = "O(log n)") := by
  refine ⟨?_, ?_, ?_⟩ <;> simp only [analyze, bsProgram_finalCase] <;> decide

/-- C3, amended: a while loop whose condition conjoins (via `and`/`or`)
a relational bound (any binary operation) with an equality test between
a flag-named identifier and a numeric literal, and whose body assigns
that identifier (directly or inside nested ifs), gets its best case
forced to the constant measure; but for the binary-search instance the
reported worst case is O(n) — one polynomial degree, no logarithm. -/
theorem c3_amended_theorem :
    (∀ (wl wc cl cc el ec il ic bl bc onl onc : Nat) (op bop : String)
       (bleft bright : Expr) (ov : Int)
       (nm : String) (eqTest : Expr) (body : List Stmt) (ctx : AnalysisContext),
       (op = "and" ∨ op = "or") →
       (eqTest = Expr.binOp el ec "=" (Expr.ident il ic nm) (Expr.num onl onc ov) ∨
        eqTest = Expr.binOp el ec "=" (Expr.num onl onc ov) (Expr.ident il ic nm)) →
       hasFlagName nm = true →
       bodyCanSetFlagNames body [nm] = true →
       (analyzeStatement (Stmt.whileLoop wl wc
          (Expr.binOp cl cc op (Expr.binOp bl bc bop bleft bright) eqTest) body) ctx).best
         = ({} : ComplexityMeasure) ∧
       (analyzeStatement (Stmt.whileLoop wl wc
          (Expr.binOp cl cc op eqTest (Expr.binOp bl bc bop bleft bright)) body) ctx).best
         = ({} : ComplexityMeasure)) ∧
    (analyze bsProgram).best_case = "Ω(1)" ∧
    (analyze bsProgram).worst_case = "O(n)" := by
  refine ⟨?_, ?_, ?_⟩
  · intro wl wc cl cc el ec il ic bl bc onl onc op bop bleft bright ov nm eqTest body
      ctx hop heq hflag hset
    have hflagCond : conditionHasExitFlag (some (Expr.binOp cl cc op
          (Expr.binOp bl bc bop bleft bright) eqTest)) = true ∧
        conditionHasExitFlag (some (Expr.binOp cl cc op eqTest
          (Expr.binOp bl bc bop bleft bright))) = true := by
      rcases heq with heq | heq <;> subst heq <;> rcases hop with hop | hop <;> subst hop <;>
        constructor <;> simp [conditionHasExitFlag, hflag]
    have hnames : (extractFlagNames (Expr.binOp cl cc op
          (Expr.binOp bl bc bop bleft bright) eqTest)).contains nm = true ∧
        (extractFlagNames (Expr.binOp cl cc op eqTest
          (Expr.binOp bl bc bop bleft bright))).contains nm = true := by
      rcases heq with heq | heq <;> subst heq <;> rcases hop with hop | hop <;> subst hop <;>
        constructor <;> simp [extractFlagNames, hflag]
    have h1 : hasEarlyExitCondition (Expr.binOp cl cc op
        (Expr.binOp bl bc bop bleft bright) eqTest) body = true := by
      unfold hasEarlyExitCondition
      rw [hflagCond.1, bodyCanSetExitFlag_of hnames.1 hset]
      rfl
    have h2 : hasEarlyExitCondition (Expr.binOp cl cc op eqTest
        (Expr.binOp bl bc bop bleft bright)) body = true := by
      unfold hasEarlyExitCondition
      rw [hflagCond.2, bodyCanSetExitFlag_of hnames.2 hset]
      rfl
    exact ⟨analyzeWhile_best_of_earlyExit h1, analyzeWhile_best_of_earlyExit h2⟩
  · simp only [analyze, bsProgram_finalCase]
    decide
  · simp only [analyze, bsProgram_finalCase]
    decide

/-- C3, witness: the amended statement applied to the binary-search
while loop itself. -/
theorem c3_amended_witness :
    hasFlagName "encontro" = true ∧
    (analyzeStatement bsWhileStmt ⟨[]⟩).best = ({} : ComplexityMeasure) ∧
    (analyze bsProgram).worst_case = "O(n)" := by
  have hflag : hasFlagName "encontro" = true := by decide
  have hset : bodyCanSetFlagNames bsWhileBody ["encontro"] = true := by
    simp [bsWhileBody, bodyCanSetFlagNames]
  have h := (c3_amended_theorem.1 5 1 5 21 5 34 5 25 5 15 5 36 "and" "<="
    (Expr.ident 5 8 "inicio") (Expr.ident 5 17 "fin") 0 "encontro"
    (Expr.binOp 5 34 "=" (Expr.ident 5 25 "encontro") (Expr.num 5 36 0))
    bsWhileBody ⟨[]⟩ (Or.inl rfl) (Or.inl rfl) hflag hset).1
  exact ⟨hflag, h, c3_amended_theorem.2.2⟩

/-- C10: the single-letter lexemes `t` and `f` (any letter case) are
reserved words lexed as keyword tokens, and a program that uses `t` as
an assignment target is rejected with `ParserError`. -/
theorem c10_theorem :
    tokenize "t" = some (Except.ok
      [⟨TokenKind.keyword, "t", 1, 1⟩, ⟨TokenKind.eof, "", 1, 2⟩]) ∧
    tokenize "T" = some (Except.ok
      [⟨TokenKind.keyword, "t", 1, 1⟩, ⟨TokenKind.eof, "", 1, 2⟩]) ∧
    tokenize "f" = some (Except.ok
      [⟨TokenKind.keyword, "f", 1, 1⟩, ⟨TokenKind.eof, "", 1, 2⟩]) ∧
    tokenize "F" = some (Except.ok
      [⟨TokenKind.keyword, "f", 1, 1⟩, ⟨TokenKind.eof, "", 1, 2⟩]) ∧
    reservedWords.contains "t" = true ∧
    reservedWords.contains "f" = true ∧
    isParserError (parseProgram "begin t 🡨 1 end") = true := by
  refine ⟨rfl, rfl, rfl, rfl, rfl, rfl, rfl⟩

/-! ## Lexer totality and the unterminated-string characterisation (C7) -/

theorem spec_skip (c : Char) (cs : List Char) (h1 : ¬ c = '►') (h2 : ¬ c = '"') :
    specUnterminatedString (c :: cs) = specUnterminatedString cs := by
  simp only [specUnterminatedString]
  rw [if_neg h1, if_neg h2]

theorem spec_cons_comment (cs : List Char) :
    specUnterminatedString ('►' :: cs) = specInComment cs := rfl

theorem spec_cons_quote (cs : List Char) :
    specUnterminatedString ('"' :: cs) = specInString cs := rfl

theorem spec_dropWhile (p : Char → Bool)
    (hp : ∀ c, p c = true → ¬ c = '►' ∧ ¬ c = '"') :
    ∀ l : List Char,
      specUnterminatedString (l.dropWhile p) = specUnterminatedString l
  | [] => rfl
  | c :: l => by
    rw [List.dropWhile_cons]
    by_cases h : p c = true
    · rw [if_pos h, spec_dropWhile p hp l, spec_skip c l (hp c h).1 (hp c h).2]
    · rw [if_neg h]

theorem specInComment_dropWhile : ∀ cs : List Char,
    specInComment cs =
      specUnterminatedString (cs.dropWhile (fun ch => ¬ (ch = '\n')))
  | [] => rfl
  | c :: cs => by
    rw [List.dropWhile_cons]
    by_cases h : c = '\n'
    · subst h
      rw [if_neg (by decide), spec_skip '\n' cs (by decide) (by decide)]
      rfl
    · rw [if_pos (by simpa using h), ← specInComment_dropWhile cs]
      simp only [specInComment]
      rw [if_neg h]

theorem specInString_cons_ne (c : Char) (cs : List Char) (h : ¬ c = '"') :
    specInString (c :: cs) = specInString cs := by
  simp only [specInString]
  rw [if_neg h]

theorem scanString_spec : ∀ (cs : List Char) (line col : Nat),
    ((scanString cs line col).1 = none → specInString cs = true) ∧
    (∀ content after, (scanString cs line col).1 = some (content, after) →
      specInString cs = specUnterminatedString after ∧
      after.length < cs.length ∧ ∀ x, x ∈ after → x ∈ cs)
  | [], _, _ =>
    ⟨fun _ => rfl, fun content after h => by simp [scanString] at h⟩
  | c :: cs, line, col => by
    by_cases h : c = '"'
    · subst h
      have hstep : scanString ('"' :: cs) line col = (some ([], cs), line, col + 1) := rfl
      constructor
      · intro hn
        rw [hstep] at hn
        simp at hn
      · intro content after hsome
        rw [hstep] at hsome
        simp only [Option.some.injEq, Prod.mk.injEq] at hsome
        obtain ⟨hc, ha⟩ := hsome
        subst ha
        exact ⟨rfl, Nat.lt_succ_self _, fun x hx => List.mem_cons_of_mem _ hx⟩
    · have hrec := scanString_spec cs (if c = '\n' then line + 1 else line)
        (if c = '\n' then 1 else col + 1)
      have hstep : scanString (c :: cs) line col =
          match scanString cs (if c = '\n' then line + 1 else line)
            (if c = '\n' then 1 else col + 1) with
          | (none, l2, c2) => (none, l2, c2)
          | (some (content, after), l2, c2) => (some (c :: content, after), l2, c2) := by
        simp only [scanString]
        rw [if_neg h]
      rcases hs : scanString cs (if c = '\n' then line + 1 else line)
        (if c = '\n' then 1 else col + 1) with ⟨o, l2, c2⟩
      rw [hs] at hstep hrec
      cases o with
      | none =>
        constructor
        · intro _
          rw [specInString_cons_ne c cs h]
          exact hrec.1 rfl
        · intro content after hsome
          rw [hstep] at hsome
          simp at hsome
      | some p =>
        rcases p with ⟨content0, after0⟩
        constructor
        · intro hn
          rw [hstep] at hn
          simp at hn
        · intro content after hsome
          rw [hstep] at hsome
          simp only [Option.some.injEq, Prod.mk.injEq] at hsome
          obtain ⟨hc, ha⟩ := hsome
          subst ha
          obtain ⟨hspec, hlt, hmem⟩ := hrec.2 content0 after0 rfl
          exact ⟨by rw [specInString_cons_ne c cs h, hspec], Nat.lt_succ_of_lt hlt,
            fun x hx => List.mem_cons_of_mem _ (hmem x hx)⟩

theorem endsWithEof_cons (t : Token) (ts : List Token)
    (h : endsWithEof ts = true) : endsWithEof (t :: ts) = true := by
  cases ts with
  | nil => simp [endsWithEof] at h
  | cons a l => simpa [endsWithEof, List.getLast?_cons_cons] using h

theorem pushTok_spec (t : Token) (r : Except String (List Token)) {b : Bool}
    (hiff : isLexError (some r) = true ↔ b = true)
    (heof : ∀ ts, r = Except.ok ts → endsWithEof ts = true) :
    ∃ r2, pushTok t (some r) = some r2 ∧
      (isLexError (some r2) = true ↔ b = true) ∧
      ∀ ts, r2 = Except.ok ts → endsWithEof ts = true := by
  cases r with
  | error e =>
    refine ⟨Except.error e, rfl, hiff, ?_⟩
    intro ts hts
    exact absurd hts (by simp)
  | ok ts0 =>
    refine ⟨Except.ok (t :: ts0), rfl, ?_, ?_⟩
    · simpa [isLexError] using hiff
    · intro ts hts
      injection hts with hts
      subst hts
      exact endsWithEof_cons t ts0 (heof ts0 rfl)

theorem consumeMultiSymbol_cases (c : Char) (nxt : Option Char) (lex : String)
    (adv : Nat) (h : consumeMultiSymbol c nxt = some (lex, adv)) :
    adv = 1 ∨ (adv = 2 ∧ (nxt = some '=' ∨ nxt = some '>')) := by
  have e1 : "<=".length = 2 := rfl
  have e2 : ">=".length = 2 := rfl
  have e3 : "<>".length = 2 := rfl
  have e4 : ":=".length = 2 := rfl
  have e5 : "≤".length = 1 := rfl
  have e6 : "≥".length = 1 := rfl
  have e7 : "🡨".length = 1 := rfl
  have e8 : "(".length = 1 := rfl
  have e9 : ")".length = 1 := rfl
  have n1 : ¬ ('≠' = '<') := by decide
  have n2 : ¬ ('≠' = '>') := by decide
  have n3 : ¬ ('≠' = ':') := by decide
  simp only [consumeMultiSymbol] at h
  split_ifs at h <;> simp_all

theorem tokenizeFuel_total : ∀ (fuel : Nat) (l : List Char) (line col : Nat),
    l.length < fuel → '\r' ∉ l →
    ∃ r, tokenizeFuel fuel l line col = some r ∧
      (isLexError (some r) = true ↔ specUnterminatedString l = true) ∧
      ∀ ts, r = Except.ok ts → endsWithEof ts = true := by
  intro fuel
  induction fuel with
  | zero =>
    intro l line col hlen _
    exact absurd hlen (by omega)
  | succ n ih =>
    intro l line col hlen hcr
    cases l with
    | nil =>
      refine ⟨Except.ok [⟨TokenKind.eof, "", line, col⟩], rfl, ?_, ?_⟩
      · simp [isLexError, specUnterminatedString]
      · intro ts hts
        injection hts with hts
        subst hts
        rfl
    | cons c cs =>
      have hlen' : cs.length < n := by
        simp only [List.length_cons] at hlen
        omega
      have hcrc : ¬ c = '\r' := fun hh => hcr (hh ▸ List.mem_cons_self c cs)
      have hcrcs : '\r' ∉ cs := fun hh => hcr (List.mem_cons_of_mem c hh)
      simp only [tokenizeFuel]
      by_cases h1 : c = ' ' ∨ c = '\t' ∨ c = '\r'
      · rw [if_pos h1]
        have hwc : isWsChar c = true := by
          rcases h1 with hh | hh | hh
          · subst hh; rfl
          · subst hh; rfl
          · exact absurd hh hcrc
        have hpws : ∀ ch, isWsChar ch = true → ¬ ch = '►' ∧ ¬ ch = '"' := by
          intro ch hh
          constructor <;> rintro rfl <;> exact absurd hh (by decide)
        have hrest : (c :: cs).dropWhile isWsChar = cs.dropWhile isWsChar := by
          rw [List.dropWhile_cons, if_pos hwc]
        obtain ⟨r, hr, hiff, heof⟩ := ih ((c :: cs).dropWhile isWsChar) line
          (col + ((c :: cs).takeWhile isWsChar).length)
          (by rw [hrest]
              exact Nat.lt_of_le_of_lt (List.dropWhile_sublist _).length_le hlen')
          (fun hm => hcr ((List.dropWhile_sublist _).subset hm))
        refine ⟨r, hr, ?_, heof⟩
        rw [← spec_dropWhile isWsChar hpws (c :: cs)]
        exact hiff
      rw [if_neg h1]
      by_cases h2 : c = '∞'
      · rw [if_pos h2]
        obtain ⟨r, hr, hiff, heof⟩ := ih cs line (col + 1) hlen' hcrcs
        rw [hr]
        have hskip : specUnterminatedString (c :: cs) = specUnterminatedString cs := by
          subst h2
          exact spec_skip _ _ (by decide) (by decide)
        rw [hskip]
        exact pushTok_spec _ r hiff heof
      rw [if_neg h2]
      by_cases h3 : c = '\n'
      · rw [if_pos h3]
        obtain ⟨r, hr, hiff, heof⟩ := ih cs (line + 1) 1 hlen' hcrcs
        refine ⟨r, hr, ?_, heof⟩
        have hskip : specUnterminatedString (c :: cs) = specUnterminatedString cs := by
          subst h3
          exact spec_skip _ _ (by decide) (by decide)
        rw [hskip]
        exact hiff
      rw [if_neg h3]
      by_cases h4 : c = '►'
      · rw [if_pos h4]
        subst h4
        have hrest : ('►' :: cs).dropWhile (fun ch => ¬ (ch = '\n')) =
            cs.dropWhile (fun ch => ¬ (ch = '\n')) := by
          rw [List.dropWhile_cons, if_pos (by decide)]
        rw [hrest]
        obtain ⟨r, hr, hiff, heof⟩ := ih (cs.dropWhile (fun ch => ¬ (ch = '\n'))) line
          (col + (('►' :: cs).takeWhile (fun ch => ¬ (ch = '\n'))).length)
          (Nat.lt_of_le_of_lt (List.dropWhile_sublist _).length_le hlen')
          (fun hm => hcrcs ((List.dropWhile_sublist _).subset hm))
        refine ⟨r, hr, ?_, heof⟩
        rw [spec_cons_comment, specInComment_dropWhile]
        exact hiff
      rw [if_neg h4]
      by_cases h5 : c = '.' ∧ cs.head? = some '.'
      · rw [if_pos h5]
        obtain ⟨hc5, hh5⟩ := h5
        cases cs with
        | nil => simp at hh5
        | cons d cs2 =>
          have hd : d = '.' := by simpa using hh5
          have hlen2 : cs2.length < n := by
            simp only [List.length_cons] at hlen'
            omega
          obtain ⟨r, hr, hiff, heof⟩ := ih ((d :: cs2).drop 1) line (col + 2) hlen2
            (fun hm => hcrcs (List.mem_cons_of_mem _ hm))
          rw [hr]
          have hskip : specUnterminatedString (c :: d :: cs2) =
              specUnterminatedString cs2 := by
            subst hc5
            subst hd
            rw [spec_skip '.' _ (by decide) (by decide),
              spec_skip '.' _ (by decide) (by decide)]
          rw [hskip]
          exact pushTok_spec _ r hiff heof
      rw [if_neg h5]
      by_cases h6 : pyIsAlpha c = true
      · rw [if_pos h6]
        have hic : isIdentChar c = true := by
          unfold pyIsAlpha at h6
          simp [isIdentChar, Char.isAlphanum, h6]
        have hpid : ∀ ch, isIdentChar ch = true → ¬ ch = '►' ∧ ¬ ch = '"' := by
          intro ch hh
          constructor <;> rintro rfl <;> exact absurd hh (by decide)
        have hrest : (c :: cs).dropWhile isIdentChar = cs.dropWhile isIdentChar := by
          rw [List.dropWhile_cons, if_pos hic]
        obtain ⟨r, hr, hiff, heof⟩ := ih ((c :: cs).dropWhile isIdentChar) line
          (col + ((c :: cs).takeWhile isIdentChar).length)
          (by rw [hrest]
              exact Nat.lt_of_le_of_lt (List.dropWhile_sublist _).length_le hlen')
          (fun hm => hcr ((List.dropWhile_sublist _).subset hm))
        rw [hr, ← spec_dropWhile isIdentChar hpid (c :: cs)]
        exact pushTok_spec _ r hiff heof
      rw [if_neg h6]
      by_cases h7 : pyIsDigit c = true
      · rw [if_pos h7]
        have hpd : ∀ ch, pyIsDigit ch = true → ¬ ch = '►' ∧ ¬ ch = '"' := by
          intro ch hh
          constructor <;> rintro rfl <;> exact absurd hh (by decide)
        have hrest : (c :: cs).dropWhile pyIsDigit = cs.dropWhile pyIsDigit := by
          rw [List.dropWhile_cons, if_pos h7]
        obtain ⟨r, hr, hiff, heof⟩ := ih ((c :: cs).dropWhile pyIsDigit) line
          (col + ((c :: cs).takeWhile pyIsDigit).length)
          (by rw [hrest]
              exact Nat.lt_of_le_of_lt (List.dropWhile_sublist _).length_le hlen')
          (fun hm => hcr ((List.dropWhile_sublist _).subset hm))
        rw [hr, ← spec_dropWhile pyIsDigit hpd (c :: cs)]
        exact pushTok_spec _ r hiff heof
      rw [if_neg h7]
      by_cases h8 : c = '"'
      · rw [if_pos h8]
        subst h8
        rcases hs : scanString cs line (col + 1) with ⟨o, l2, c2⟩
        cases o with
        | none =>
          refine ⟨Except.error ("Unterminated string literal at line " ++ toString l2),
            rfl, ?_, ?_⟩
          · have hspec : specInString cs = true :=
              (scanString_spec cs line (col + 1)).1 (by rw [hs])
            rw [spec_cons_quote, hspec]
            simp [isLexError]
          · intro ts hts
            exact absurd hts (by simp)
        | some p =>
          rcases p with ⟨content, after⟩
          obtain ⟨hspec, hlt, hmem⟩ :=
            (scanString_spec cs line (col + 1)).2 content after (by rw [hs])
          obtain ⟨r, hr, hiff, heof⟩ := ih after l2 c2 (by omega)
            (fun hm => hcrcs (hmem _ hm))
          have hiff2 : isLexError (some r) = true ↔
              specUnterminatedString ('"' :: cs) = true := by
            rw [spec_cons_quote, hspec]
            exact hiff
          obtain ⟨r2, hpush, hiff3, heof2⟩ :=
            pushTok_spec (Token.mk TokenKind.string ⟨content⟩ l2 col) r hiff2 heof
          have hfin : pushTok (Token.mk TokenKind.string ⟨content⟩ l2 col)
              (tokenizeFuel n after l2 c2) = some r2 := by
            rw [hr]
            exact hpush
          exact ⟨r2, hfin, hiff3, heof2⟩
      rw [if_neg h8]
      rcases hms : consumeMultiSymbol c cs.head? with _ | ⟨lex, adv⟩
      · obtain ⟨r, hr, hiff, heof⟩ := ih cs line (col + 1) hlen' hcrcs
        have hiff2 : isLexError (some r) = true ↔
            specUnterminatedString (c :: cs) = true := by
          rw [spec_skip c cs h4 h8]
          exact hiff
        obtain ⟨r2, hpush, hiff3, heof2⟩ :=
          pushTok_spec (Token.mk TokenKind.symbol (String.singleton c) line col) r hiff2 heof
        have hfin : pushTok (Token.mk TokenKind.symbol (String.singleton c) line col)
            (tokenizeFuel n cs line (col + 1)) = some r2 := by
          rw [hr]
          exact hpush
        exact ⟨r2, hfin, hiff3, heof2⟩
      · rcases consumeMultiSymbol_cases c cs.head? lex adv hms with hadv | ⟨hadv, hnxt⟩
        · subst hadv
          obtain ⟨r, hr, hiff, heof⟩ := ih ((c :: cs).drop 1) line (col + 1) hlen' hcrcs
          have hiff2 : isLexError (some r) = true ↔
              specUnterminatedString (c :: cs) = true := by
            rw [spec_skip c cs h4 h8]
            exact hiff
          obtain ⟨r2, hpush, hiff3, heof2⟩ :=
            pushTok_spec (Token.mk TokenKind.symbol lex line col) r hiff2 heof
          have hfin : pushTok (Token.mk TokenKind.symbol lex line col)
              (tokenizeFuel n ((c :: cs).drop 1) line (col + 1)) = some r2 := by
            rw [hr]
            exact hpush
          exact ⟨r2, hfin, hiff3, heof2⟩
        · subst hadv
          cases cs with
          | nil => simp at hnxt
          | cons d cs2 =>
            have hd : d = '=' ∨ d = '>' := by
              rcases hnxt with hh | hh
              · left; simpa using hh
              · right; simpa using hh
            have hd1 : ¬ d = '►' := by
              rcases hd with hh | hh <;> subst hh <;> decide
            have hd2 : ¬ d = '"' := by
              rcases hd with hh | hh <;> subst hh <;> decide
            have hlen2 : cs2.length < n := by
              simp only [List.length_cons] at hlen'
              omega
            obtain ⟨r, hr, hiff, heof⟩ := ih ((c :: d :: cs2).drop 2) line (col + 2) hlen2
              (fun hm => hcrcs (List.mem_cons_of_mem _ hm))
            have hiff2 : isLexError (some r) = true ↔
                specUnterminatedString (c :: d :: cs2) = true := by
              rw [spec_skip c _ h4 h8, spec_skip d _ hd1 hd2]
              exact hiff
            obtain ⟨r2, hpush, hiff3, heof2⟩ :=
              pushTok_spec (Token.mk TokenKind.symbol lex line col) r hiff2 heof
            have hfin : pushTok (Token.mk TokenKind.symbol lex line col)
                (tokenizeFuel n ((c :: d :: cs2).drop 2) line (col + 2)) = some r2 := by
              rw [hr]
              exact hpush
            exact ⟨r2, hfin, hiff3, heof2⟩

/-- C7, counterexample.  The claim is refuted by a bare carriage return:
the main lexer loop enters the whitespace branch for a carriage return,
but the whitespace consumer only advances past spaces and tabs, so the
Python loop makes no progress and never terminates (modelled by the fuel
running out: `tokenize` returns `none`).  The input contains no
unterminated string literal and no `LexerError` is raised — the lexer
simply never returns a result. -/
theorem c7_counterexample :
    tokenize "\r" = none ∧
    specUnterminatedString ("\r".toList) = false ∧
    isLexError (tokenize "\r") = false := by
  refine ⟨rfl, rfl, rfl⟩

/-- C7, amended: for every source string that contains no carriage
return the lexer terminates; it fails with `LexerError` exactly when the
source contains an unterminated string literal (the three-state
reference scan `specUnterminatedString`), and every successful token
list ends with the `Eof` marker.  Unrecognized single characters such as
`@` become single-character `Symbol` tokens rather than errors. -/
theorem c7_amended :
    (∀ s : String, '\r' ∉ s.toList →
      ∃ r, tokenize s = some r ∧
        (isLexError (some r) = true ↔ specUnterminatedString s.toList = true) ∧
        ∀ ts, r = Except.ok ts → endsWithEof ts = true) ∧
    tokenize "@" = some (Except.ok
      [⟨TokenKind.symbol, "@", 1, 1⟩, ⟨TokenKind.eof, "", 1, 2⟩]) ∧
    isLexError (tokenize "@") = false := by
  refine ⟨?_, rfl, rfl⟩
  intro s hs
  have hlen : s.toList.length < s.length + 1 := by
    have he : s.length = s.toList.length := rfl
    omega
  exact tokenizeFuel_total (s.length + 1) s.toList 1 1 hlen hs

/-- C7, witness: the amended statement applied to a concrete source
containing an unrecognized character. -/
theorem c7_amended_witness :
    ('\r' ∉ ("x @ 1").toList) ∧
    (∃ r, tokenize "x @ 1" = some r ∧
      (isLexError (some r) = true ↔ specUnterminatedString ("x @ 1").toList = true) ∧
      ∀ ts, r = Except.ok ts → endsWithEof ts = true) :=
  ⟨by decide, c7_amended.1 "x @ 1" (by decide)⟩

end Algoritmos
